import Mathlib

/-
Verification development for the event-driven warehouse pipeline
(sensor damage detector, order aggregator, batch aggregator).

The Go sources are shallowly embedded: every stateful operation becomes a
pure function on an explicit state, wall-clock reads become an explicit
`now : Nat` argument, Go float64 sensor values become `Rat`, fallible Go
functions return `Except String`.  The in-memory repositories (Go maps
keyed by id) are modelled as lists with replace-first/append update, which
is faithful whenever ids are unique (a Go map cannot hold two entries with
one key); theorems that need it carry an explicit id-uniqueness hypothesis.
-/

set_option autoImplicit false

namespace ArqK8s

/-! ## Batch domain (warehouse batch service, domain/batch.go) -/

inductive BatchStatus where
  | pending
  | processing
  | completed
  | cancelled
  | damaged
  deriving DecidableEq, Repr

structure BatchItem where
  orderID : String
  productID : String
  quantity : Int
  status : String
  addedAt : Nat
  processedAt : Option Nat
  deriving DecidableEq, Repr

structure Batch where
  id : String
  productID : String
  status : BatchStatus
  items : List BatchItem
  totalItems : Nat
  createdAt : Nat
  updatedAt : Nat
  processedAt : Option Nat
  deriving DecidableEq, Repr

def newBatch (id productID : String) (now : Nat) : Batch :=
  { id := id
    productID := productID
    status := .pending
    items := []
    totalItems := 0
    createdAt := now
    updatedAt := now
    processedAt := none }

/-- The in-place update loop of `Batch.AddItem`: the first item whose
order id matches is overwritten with the new quantity, status and
added-at time; `none` when no item matches. -/
def updItems (orderID : String) (quantity : Int) (status : String) (now : Nat) :
    List BatchItem → Option (List BatchItem)
  | [] => none
  | i :: rest =>
    if i.orderID = orderID then
      some ({ i with quantity := quantity, status := status, addedAt := now } :: rest)
    else
      (updItems orderID quantity status now rest).map (i :: ·)

def Batch.addItem (b : Batch) (orderID productID : String) (quantity : Int)
    (status : String) (now : Nat) : Except String Batch :=
  if b.productID ≠ productID then
    .error ("product ID mismatch: batch is for " ++ b.productID ++ ", item is for " ++ productID)
  else if b.status = .completed ∨ b.status = .cancelled then
    .error "cannot add items to batch"
  else
    match updItems orderID quantity status now b.items with
    | some items2 => .ok { b with items := items2, updatedAt := now }
    | none =>
      let items2 := b.items ++
        [{ orderID := orderID, productID := productID, quantity := quantity,
           status := status, addedAt := now, processedAt := none }]
      .ok { b with items := items2, totalItems := items2.length, updatedAt := now }

/-- The removal loop of `Batch.RemoveItem`: drops the first item whose
order id matches; `none` when no item matches. -/
def removeFirstItem (orderID : String) : List BatchItem → Option (List BatchItem)
  | [] => none
  | i :: rest =>
    if i.orderID = orderID then some rest
    else (removeFirstItem orderID rest).map (i :: ·)

def Batch.removeItem (b : Batch) (orderID : String) (now : Nat) : Except String Batch :=
  if b.status = .completed then
    .error "cannot remove items from completed batch"
  else
    match removeFirstItem orderID b.items with
    | some items2 => .ok { b with items := items2, totalItems := items2.length, updatedAt := now }
    | none => .error ("order " ++ orderID ++ " not found in batch")

/-- The status-update loop of `Batch.UpdateItemStatus`; `processedAt` is
set when the new status is processed/shipped/delivered. -/
def updItemStatus (orderID status : String) (now : Nat) :
    List BatchItem → Option (List BatchItem)
  | [] => none
  | i :: rest =>
    if i.orderID = orderID then
      let pA := if status = "processed" ∨ status = "shipped" ∨ status = "delivered"
        then some now else i.processedAt
      some ({ i with status := status, processedAt := pA } :: rest)
    else
      (updItemStatus orderID status now rest).map (i :: ·)

def Batch.updateItemStatus (b : Batch) (orderID status : String) (now : Nat) :
    Except String Batch :=
  match updItemStatus orderID status now b.items with
  | some items2 => .ok { b with items := items2, updatedAt := now }
  | none => .error ("order " ++ orderID ++ " not found in batch")

def Batch.startProcessing (b : Batch) (now : Nat) : Except String Batch :=
  if b.status ≠ .pending then .error "cannot start processing batch"
  else .ok { b with status := .processing, updatedAt := now }

def Batch.complete (b : Batch) (now : Nat) : Except String Batch :=
  if b.status ≠ .processing then .error "cannot complete batch"
  else .ok { b with status := .completed, processedAt := some now, updatedAt := now }

def Batch.cancel (b : Batch) (now : Nat) : Except String Batch :=
  if b.status = .completed then .error "cannot cancel completed batch"
  else .ok { b with status := .cancelled, updatedAt := now }

def Batch.markAsDamaged (b : Batch) (now : Nat) : Except String Batch :=
  .ok { b with status := .damaged, updatedAt := now }

def Batch.getItemByOrderID (b : Batch) (orderID : String) : Option BatchItem :=
  b.items.find? (fun i => decide (i.orderID = orderID))

def Batch.hasOrder (b : Batch) (orderID : String) : Bool :=
  (b.getItemByOrderID orderID).isSome

def Batch.isEmpty (b : Batch) : Bool :=
  b.items.isEmpty

/-! ## Batch repository (batch_memory_repository.go)

A Go `map[string]*Batch` keyed by batch id, modelled as a list: `save`
replaces the first entry with the same id or appends, `delete` removes the
first entry with the id.  Find operations scan in list order. -/

abbrev Repo := List Batch

def Repo.save : Repo → Batch → Repo
  | [], b => [b]
  | x :: rest, b => if x.id = b.id then b :: rest else x :: Repo.save rest b

def Repo.delete : Repo → String → Repo
  | [], _ => []
  | x :: rest, id => if x.id = id then rest else x :: Repo.delete rest id

def Repo.findByID (r : Repo) (id : String) : Option Batch :=
  r.find? (fun b => decide (b.id = id))

def Repo.findByOrderID (r : Repo) (orderID : String) : Option Batch :=
  r.find? (fun b => b.hasOrder orderID)

def Repo.findPendingBatchForProduct (r : Repo) (productID : String) : Option Batch :=
  r.find? (fun b => decide (b.productID = productID ∧ b.status = BatchStatus.pending))

/-! ## Batch events (domain/batch_event.go) -/

structure BatchEvent where
  eventType : String
  batchID : String
  productID : String
  batch : Batch
  orderID : Option String
  itemDetails : Option BatchItem
  timestamp : Nat
  deriving DecidableEq, Repr

def newBatchCreatedEvent (b : Batch) (now : Nat) : BatchEvent :=
  { eventType := "batch.created", batchID := b.id, productID := b.productID,
    batch := b, orderID := none, itemDetails := none, timestamp := now }

def newBatchItemAddedEvent (b : Batch) (orderID : String) (item : BatchItem) (now : Nat) :
    BatchEvent :=
  { eventType := "batch.item_added", batchID := b.id, productID := b.productID,
    batch := b, orderID := some orderID, itemDetails := some item, timestamp := now }

def newBatchItemRemovedEvent (b : Batch) (orderID : String) (now : Nat) : BatchEvent :=
  { eventType := "batch.item_removed", batchID := b.id, productID := b.productID,
    batch := b, orderID := some orderID, itemDetails := none, timestamp := now }

def newBatchItemUpdatedEvent (b : Batch) (orderID : String) (item : BatchItem) (now : Nat) :
    BatchEvent :=
  { eventType := "batch.item_updated", batchID := b.id, productID := b.productID,
    batch := b, orderID := some orderID, itemDetails := some item, timestamp := now }

def newBatchProcessingStartedEvent (b : Batch) (now : Nat) : BatchEvent :=
  { eventType := "batch.processing_started", batchID := b.id, productID := b.productID,
    batch := b, orderID := none, itemDetails := none, timestamp := now }

def newBatchCompletedEvent (b : Batch) (now : Nat) : BatchEvent :=
  { eventType := "batch.completed", batchID := b.id, productID := b.productID,
    batch := b, orderID := none, itemDetails := none, timestamp := now }

def newBatchCancelledEvent (b : Batch) (now : Nat) : BatchEvent :=
  { eventType := "batch.cancelled", batchID := b.id, productID := b.productID,
    batch := b, orderID := none, itemDetails := none, timestamp := now }

def newBatchDamagedEvent (b : Batch) (now : Nat) : BatchEvent :=
  { eventType := "batch.marked_damaged", batchID := b.id, productID := b.productID,
    batch := b, orderID := none, itemDetails := none, timestamp := now }

/-! ## Batch service (application/batch_service.go)

State = repository + the stream of batch events handed to the publisher.
Publish failures in Go are logged and ignored, so publishing is modelled
as an unconditional append. -/

structure ServiceState where
  repo : Repo
  events : List BatchEvent
  deriving DecidableEq, Repr

def initialServiceState : ServiceState := { repo := [], events := [] }

def generateBatchID (productID : String) (now : Nat) : String :=
  "BATCH-" ++ productID ++ "-" ++ toString now

def addOrderToBatch (st : ServiceState) (orderID productID : String) (quantity : Int)
    (status : String) (now : Nat) : Except String (ServiceState × Batch) :=
  let found := st.repo.findPendingBatchForProduct productID
  let batch0 := found.getD (newBatch (generateBatchID productID now) productID now)
  let isNewBatch := found.isNone
  match batch0.addItem orderID productID quantity status now with
  | .error e => .error ("failed to add order to batch: " ++ e)
  | .ok batch1 =>
    let repo1 := st.repo.save batch1
    let evs1 := if isNewBatch then st.events ++ [newBatchCreatedEvent batch1 now] else st.events
    let evs2 :=
      match batch1.getItemByOrderID orderID with
      | some item => evs1 ++ [newBatchItemAddedEvent batch1 orderID item now]
      | none => evs1
    .ok ({ repo := repo1, events := evs2 }, batch1)

def removeOrderFromBatch (st : ServiceState) (orderID : String) (now : Nat) :
    Except String ServiceState :=
  match st.repo.findByOrderID orderID with
  | none => .error ("failed to find batch for order " ++ orderID)
  | some batch =>
    match batch.removeItem orderID now with
    | .error e => .error ("failed to remove order from batch: " ++ e)
    | .ok batch1 =>
      let evs := st.events ++ [newBatchItemRemovedEvent batch1 orderID now]
      if batch1.isEmpty then
        .ok { repo := st.repo.delete batch1.id, events := evs }
      else
        .ok { repo := st.repo.save batch1, events := evs }

def updateOrderStatus (st : ServiceState) (orderID status : String) (now : Nat) :
    Except String ServiceState :=
  match st.repo.findByOrderID orderID with
  | none => .error ("failed to find batch for order " ++ orderID)
  | some batch =>
    match batch.updateItemStatus orderID status now with
    | .error e => .error ("failed to update order status: " ++ e)
    | .ok batch1 =>
      let repo1 := st.repo.save batch1
      let evs :=
        match batch1.getItemByOrderID orderID with
        | some item => st.events ++ [newBatchItemUpdatedEvent batch1 orderID item now]
        | none => st.events
      .ok { repo := repo1, events := evs }

def processBatch (st : ServiceState) (batchID : String) (now : Nat) :
    Except String ServiceState :=
  match st.repo.findByID batchID with
  | none => .error ("failed to find batch " ++ batchID)
  | some batch =>
    match batch.startProcessing now with
    | .error e => .error e
    | .ok batch1 =>
      .ok { repo := st.repo.save batch1,
            events := st.events ++ [newBatchProcessingStartedEvent batch1 now] }

def completeBatch (st : ServiceState) (batchID : String) (now : Nat) :
    Except String ServiceState :=
  match st.repo.findByID batchID with
  | none => .error ("failed to find batch " ++ batchID)
  | some batch =>
    match batch.complete now with
    | .error e => .error e
    | .ok batch1 =>
      .ok { repo := st.repo.save batch1,
            events := st.events ++ [newBatchCompletedEvent batch1 now] }

def cancelBatch (st : ServiceState) (batchID : String) (now : Nat) :
    Except String ServiceState :=
  match st.repo.findByID batchID with
  | none => .error ("failed to find batch " ++ batchID)
  | some batch =>
    match batch.cancel now with
    | .error e => .error e
    | .ok batch1 =>
      .ok { repo := st.repo.save batch1,
            events := st.events ++ [newBatchCancelledEvent batch1 now] }

def markBatchAsDamaged (st : ServiceState) (batchID : String) (now : Nat) :
    Except String ServiceState :=
  match st.repo.findByID batchID with
  | none => .error ("failed to find batch " ++ batchID)
  | some batch =>
    match batch.markAsDamaged now with
    | .error e => .error e
    | .ok batch1 =>
      .ok { repo := st.repo.save batch1,
            events := st.events ++ [newBatchDamagedEvent batch1 now] }

/-- Check a fallible result for success. -/
def exceptOk {ε α : Type} : Except ε α → Bool
  | .ok _ => true
  | .error _ => false

/-! ## Order data shared by both services (domain/order.go on each side) -/

structure Order where
  id : String
  customerID : String
  productID : String
  quantity : Int
  status : String
  totalAmount : ℚ
  createdAt : Nat
  updatedAt : Nat
  deriving DecidableEq, Repr

structure OrderEvent where
  eventType : String
  orderID : String
  order : Order
  timestamp : Nat
  deriving DecidableEq, Repr

/-! ## Batch-side order service (warehouse batch application/order_service.go) -/

def isWarehouseRelevant (eventType : String) : Bool :=
  eventType ∈ ["order.damage_processed", "order.created", "order.cancelled",
    "order.shipped", "order.delivered", "order.returned",
    "order.inventory_allocated", "order.inventory_released"]

def getWarehouseAction (eventType : String) : String :=
  if eventType = "order.damage_processed" then "process_damage"
  else if eventType = "order.created" then "allocate_inventory"
  else if eventType = "order.cancelled" then "release_inventory"
  else if eventType = "order.shipped" then "update_inventory"
  else if eventType = "order.delivered" then "confirm_delivery"
  else if eventType = "order.returned" then "process_return"
  else if eventType = "order.inventory_allocated" then "confirm_allocation"
  else if eventType = "order.inventory_released" then "confirm_release"
  else "unknown"

/-- `processDamage`: switch on the embedded order's status.  Status-update
first; when the order is in no batch, fall back to `addOrderToBatch`
(which reuses the product's pending batch or creates a new one).  For
major damage the containing batch is then marked damaged; marking errors
are logged, not returned. -/
def processDamage (st : ServiceState) (ev : OrderEvent) (now : Nat) :
    Except String ServiceState :=
  if ev.order.status = "damage_detected_minor" then
    match updateOrderStatus st ev.orderID "damage_minor" now with
    | .ok st1 => .ok st1
    | .error _ =>
      match addOrderToBatch st ev.orderID ev.order.productID ev.order.quantity
          "damage_minor" now with
      | .ok (st1, _) => .ok st1
      | .error e => .error e
  else if ev.order.status = "damage_detected_major" then
    match updateOrderStatus st ev.orderID "damage_major" now with
    | .ok st1 =>
      match st1.repo.findByOrderID ev.orderID with
      | some batch =>
        match markBatchAsDamaged st1 batch.id now with
        | .ok st2 => .ok st2
        | .error _ => .ok st1
      | none => .ok st1
    | .error _ =>
      match addOrderToBatch st ev.orderID ev.order.productID ev.order.quantity
          "damage_major" now with
      | .error e => .error e
      | .ok (st1, batch) =>
        match markBatchAsDamaged st1 batch.id now with
        | .ok st2 => .ok st2
        | .error _ => .ok st1
  else if ev.order.status = "damage_processed" then
    match updateOrderStatus st ev.orderID "damage_processed" now with
    | .ok st1 => .ok st1
    | .error _ =>
      match addOrderToBatch st ev.orderID ev.order.productID ev.order.quantity
          "damage_processed" now with
      | .ok (st1, _) => .ok st1
      | .error e => .error e
  else
    .ok st

def allocateInventory (st : ServiceState) (ev : OrderEvent) (now : Nat) :
    Except String ServiceState :=
  match addOrderToBatch st ev.orderID ev.order.productID ev.order.quantity
      "allocated" now with
  | .ok (st1, _) => .ok st1
  | .error e => .error e

def releaseInventory (st : ServiceState) (ev : OrderEvent) (now : Nat) :
    Except String ServiceState :=
  removeOrderFromBatch st ev.orderID now

def updateInventory (st : ServiceState) (ev : OrderEvent) (now : Nat) :
    Except String ServiceState :=
  updateOrderStatus st ev.orderID "shipped" now

def confirmDelivery (st : ServiceState) (ev : OrderEvent) (now : Nat) :
    Except String ServiceState :=
  updateOrderStatus st ev.orderID "delivered" now

def processReturn (st : ServiceState) (ev : OrderEvent) (now : Nat) :
    Except String ServiceState :=
  match updateOrderStatus st ev.orderID "returned" now with
  | .error e => .error e
  | .ok st1 =>
    match addOrderToBatch st1 (ev.orderID ++ "-return") ev.order.productID
        ev.order.quantity "returned" now with
    | .ok (st2, _) => .ok st2
    | .error e => .error e

def confirmAllocation (st : ServiceState) (ev : OrderEvent) (now : Nat) :
    Except String ServiceState :=
  updateOrderStatus st ev.orderID "allocation_confirmed" now

def confirmRelease (st : ServiceState) (ev : OrderEvent) (now : Nat) :
    Except String ServiceState :=
  updateOrderStatus st ev.orderID "release_confirmed" now

/-- `OrderService.HandleOrderEvent` of the warehouse batch service. -/
def handleWarehouseOrderEvent (st : ServiceState) (ev : OrderEvent) (now : Nat) :
    Except String ServiceState :=
  if ¬ isWarehouseRelevant ev.eventType then .ok st
  else
    let action := getWarehouseAction ev.eventType
    if action = "process_damage" then processDamage st ev now
    else if action = "allocate_inventory" then allocateInventory st ev now
    else if action = "release_inventory" then releaseInventory st ev now
    else if action = "update_inventory" then updateInventory st ev now
    else if action = "confirm_delivery" then confirmDelivery st ev now
    else if action = "process_return" then processReturn st ev now
    else if action = "confirm_allocation" then confirmAllocation st ev now
    else if action = "confirm_release" then confirmRelease st ev now
    else .error ("unknown warehouse action: " ++ action)

/-! ## Order-management service (part of the order aggregator) -/

structure OrderDamageDetails where
  temperature : ℚ
  humidity : Int
  status : String
  mqttTopic : String
  deriving DecidableEq, Repr

structure OrderDamageEvent where
  eventID : String
  typ : String
  source : String
  occurredAt : Nat
  orderID : String
  severity : String
  description : String
  details : OrderDamageDetails
  deriving DecidableEq, Repr

/-- The order repository: a Go `map[string]domain.Order`, modelled as a
list with replace-first/append save. -/
abbrev OrderRepo := List Order

def OrderRepo.save : OrderRepo → Order → OrderRepo
  | [], o => [o]
  | x :: rest, o => if x.id = o.id then o :: rest else x :: OrderRepo.save rest o

def OrderRepo.findByID (r : OrderRepo) (id : String) : Option Order :=
  r.find? (fun o => decide (o.id = id))

def OrderRepo.update (r : OrderRepo) (o : Order) : Except String OrderRepo :=
  if (r.findByID o.id).isSome then .ok (r.save o)
  else .error ("order with ID " ++ o.id ++ " not found")

structure OrderServiceState where
  orders : OrderRepo
  events : List OrderEvent
  deriving DecidableEq, Repr

/-- Severity-to-status switch of `HandleOrderDamageEvent`. -/
def damageStatusForSeverity (severity : String) : String :=
  if severity = "minor" then "damage_detected_minor"
  else if severity = "major" then "damage_detected_major"
  else if severity = "critical" then "cancelled_damage"
  else "damage_detected_unknown"

/-- `OrderService.HandleOrderDamageEvent`: find or synthesize the order,
transition its status from the damage severity, persist, and publish a
single `order.damage_processed` event carrying the updated snapshot. -/
def handleOrderDamageEvent (st : OrderServiceState) (ev : OrderDamageEvent) (now : Nat) :
    Except String OrderServiceState :=
  let step1 : Order × OrderRepo :=
    match st.orders.findByID ev.orderID with
    | some o => (o, st.orders)
    | none =>
      let newOrder : Order :=
        { id := ev.orderID, customerID := "unknown", productID := "unknown",
          quantity := 1, status := "created_from_damage_event", totalAmount := 0,
          createdAt := ev.occurredAt, updatedAt := now }
      (newOrder, st.orders.save newOrder)
  let order1 : Order :=
    { step1.1 with status := damageStatusForSeverity ev.severity, updatedAt := now }
  match step1.2.update order1 with
  | .error e => .error ("failed to update order status after damage event: " ++ e)
  | .ok orders2 =>
    let outEvent : OrderEvent :=
      { eventType := "order.damage_processed", orderID := order1.id,
        order := order1, timestamp := now }
    .ok { orders := orders2, events := st.events ++ [outEvent] }

/-- `OrderService.HandleOrderEvent` of the order-management service only
logs by event type and always succeeds. -/
def handleOrderMgmtEvent (st : OrderServiceState) (_ev : OrderEvent) :
    Except String OrderServiceState :=
  .ok st

/-! ## Order consumer adapter (order_consumer_adapter.go)

JSON decoding is external; a delivery body is modelled by the outcomes of
the two `json.Unmarshal` attempts the adapter makes (into the MQTT wrapper
struct and into an OrderEvent), plus a parse function for the nested
damage payload string. -/

structure MQTTOrderEvent where
  mqttTopic : String
  payload : String
  timestamp : ℚ
  deriving DecidableEq, Repr

structure DeliveryBody where
  asWrapper : Option MQTTOrderEvent
  asOrderEvent : Option OrderEvent
  deriving DecidableEq, Repr

inductive TranslatedEvent where
  | damage (d : OrderDamageEvent)
  | order (e : OrderEvent)
  deriving DecidableEq, Repr

/-- Fallback event built when the body is not valid JSON for either
struct: a synthetic `order.message` event (translateMessage, last path). -/
def fallbackOrderEvent (now : Nat) : OrderEvent :=
  { eventType := "order.message", orderID := "unknown",
    order := { id := "", customerID := "", productID := "", quantity := 0,
               status := "", totalAmount := 0, createdAt := 0, updatedAt := 0 },
    timestamp := now }

def translateMessage (body : DeliveryBody)
    (parseDamage : String → Option OrderDamageEvent) (now : Nat) :
    Except String TranslatedEvent :=
  let orderPath : Except String TranslatedEvent :=
    match body.asOrderEvent with
    | some e => .ok (.order e)
    | none => .ok (.order (fallbackOrderEvent now))
  match body.asWrapper with
  | some w =>
    if w.mqttTopic = "events/order-damage" then
      match parseDamage w.payload with
      | some d => .ok (.damage d)
      | none => .error "failed to parse damage payload"
    else orderPath
  | none => orderPath

inductive AckAction where
  | ack
  | nackRequeue
  | nackNoRequeue
  deriving DecidableEq, Repr

/-- One iteration of the consumer loop in `Start`: translate, dispatch to
the handler, then ack on success, nack-requeue on handler error,
nack-no-requeue on translation error. -/
def processDelivery (st : OrderServiceState) (body : DeliveryBody)
    (parseDamage : String → Option OrderDamageEvent) (now : Nat) :
    AckAction × OrderServiceState :=
  match translateMessage body parseDamage now with
  | .error _ => (.nackNoRequeue, st)
  | .ok (.damage d) =>
    match handleOrderDamageEvent st d now with
    | .ok st1 => (.ack, st1)
    | .error _ => (.nackRequeue, st)
  | .ok (.order e) =>
    match handleOrderMgmtEvent st e with
    | .ok st1 => (.ack, st1)
    | .error _ => (.nackRequeue, st)

/-! ## Damage detector (mqtt-order-event-client main.go + publisher) -/

structure SensorEvent where
  id : String
  timestamp : Nat
  typ : String
  source : String
  temperature : ℚ
  humidity : ℚ
  status : String
  deriving DecidableEq, Repr

/-- `deriveSeverity` (OrderPublisher.go): starts at minor, upgraded to
major, then possibly overridden to critical. -/
def deriveSeverity (temperature humidity : ℚ) : String :=
  let severity := "minor"
  let severity := if temperature ≥ 30 ∨ humidity ≥ 80 then "major" else severity
  if temperature ≥ 40 ∨ humidity ≥ 90 then "critical" else severity

/-- The damage event the detector builds from a sensor reading
(`PublishOrderDamageFromSensor`); the printf-built description is
abstracted to a fixed marker. -/
structure DetectorDamageEvent where
  eventID : String
  typ : String
  source : String
  occurredAt : Nat
  orderID : String
  severity : String
  description : String
  temperature : ℚ
  humidity : ℚ
  status : String
  mqttTopic : String
  deriving DecidableEq, Repr

def buildDamageEvent (sensorID source : String) (temperature humidity : ℚ)
    (status mqttTopic : String) (now : Nat) : DetectorDamageEvent :=
  { eventID := sensorID, typ := "order.damage", source := source,
    occurredAt := now, orderID := sensorID,
    severity := deriveSeverity temperature humidity,
    description := "Potential damage detected",
    temperature := temperature, humidity := humidity,
    status := status, mqttTopic := mqttTopic }

inductive PublishTarget where
  | mqttTopic (topic : String)
  | kafkaTopic (topic : String)
  deriving DecidableEq, Repr

structure PublishAction where
  target : PublishTarget
  event : DetectorDamageEvent
  timeoutSeconds : Nat
  deriving DecidableEq, Repr

/-- `EventStore.AddEvent`: append, keep only the last `maxSize`. -/
def addEventToStore (maxSize : Nat) (store : List SensorEvent) (ev : SensorEvent) :
    List SensorEvent :=
  let s := store ++ [ev]
  if maxSize < s.length then s.drop (s.length - maxSize) else s

structure HandlerResult where
  store : List SensorEvent
  publishes : List PublishAction
  deriving DecidableEq, Repr

/-- `messageHandler` (main.go): drop undecodable payloads; store the
event; when `temperature < minTemperature`, publish one damage event via
the MQTT publisher (`orderPublisher`) under a 5-second context timeout. -/
def messageHandler (minTemperature : ℚ) (store : List SensorEvent)
    (payload : Option SensorEvent) (pubTopic srcTopic : String) (now : Nat) :
    HandlerResult :=
  match payload with
  | none => { store := store, publishes := [] }
  | some ev =>
    let store1 := addEventToStore 1000 store ev
    if ev.temperature < minTemperature then
      { store := store1,
        publishes := [{ target := .mqttTopic pubTopic,
                        event := buildDamageEvent ev.id "mqtt-order-event-client"
                          ev.temperature ev.humidity ev.status srcTopic now,
                        timeoutSeconds := 5 }] }
    else
      { store := store1, publishes := [] }

/-! ## Self-healing batch event publisher (batch_event_publisher_adapter.go) -/

def charsBeginWith : List Char → List Char → Bool
  | [], _ => true
  | _ :: _, [] => false
  | p :: ps, c :: cs => p = c && charsBeginWith ps cs

def charsContain (p : List Char) : List Char → Bool
  | [] => charsBeginWith p []
  | c :: rest => charsBeginWith p (c :: rest) || charsContain p rest

/-- `strings.Contains(s, pat)`. -/
def strContains (s pat : String) : Bool :=
  charsContain pat.toList s.toList

/-- ASCII lower-casing of one character, as `strings.ToLower` acts on the
ASCII error strings involved here. -/
def charToLower (c : Char) : Char :=
  if 65 ≤ c.toNat ∧ c.toNat ≤ 90 then Char.ofNat (c.toNat + 32) else c

/-- `strings.ToLower`. -/
def strToLower (s : String) : String := ⟨s.data.map charToLower⟩

/-- `isUnknownTopicOrPartitionError`: lower-case the error text, match the
four substrings. -/
def isUnknownTopicOrPartitionError (err : Option String) : Bool :=
  match err with
  | none => false
  | some e =>
    let errStr := strToLower e
    strContains errStr "[3] unknown topic or partition" ||
    strContains errStr "unknowntopicorpartition" ||
    strContains errStr "unknown topic or partition" ||
    strContains errStr "topic or partition that does not exist"

inductive PubAttempt where
  | ok
  | err (msg : String)
  deriving DecidableEq, Repr

structure PublisherOutcome where
  result : Except String Unit
  writerRebuilt : Bool
  waitSeconds : Nat
  retried : Bool
  deriving Repr

/-- `PublishBatchEvent` against given broker responses for the first
attempt and the (at most one) retry: on a topic-missing error the writer
is closed and rebuilt, the publisher waits 2 s and retries once; any
other error is returned as is. -/
def publishWithRecovery (first retry : PubAttempt) : PublisherOutcome :=
  match first with
  | .ok => { result := .ok (), writerRebuilt := false, waitSeconds := 0, retried := false }
  | .err e =>
    if isUnknownTopicOrPartitionError (some e) then
      match retry with
      | .ok => { result := .ok (), writerRebuilt := true, waitSeconds := 2, retried := true }
      | .err e2 =>
        { result := .error ("failed to write batch event to Kafka after retry: " ++ e2),
          writerRebuilt := true, waitSeconds := 2, retried := true }
    else
      { result := .error ("failed to write batch event to Kafka: " ++ e),
        writerRebuilt := false, waitSeconds := 0, retried := false }

/-! ## Lemmas about the item-list loops -/

def itemPred (orderID : String) (i : BatchItem) : Bool :=
  decide (i.orderID = orderID)

def nodupIds (r : Repo) : Prop := (r.map Batch.id).Nodup

def itemEqUpTo (a b : BatchItem) : Prop :=
  a.orderID = b.orderID ∧ a.productID = b.productID ∧ a.quantity = b.quantity ∧
  a.status = b.status ∧ a.processedAt = b.processedAt

def batchEqUpTo (a b : Batch) : Prop :=
  a.id = b.id ∧ a.productID = b.productID ∧ a.status = b.status ∧
  a.totalItems = b.totalItems ∧ a.createdAt = b.createdAt ∧
  a.processedAt = b.processedAt ∧ List.Forall₂ itemEqUpTo a.items b.items

def repoEqUpTo (r1 r2 : Repo) : Prop := List.Forall₂ batchEqUpTo r1 r2

def repoItemStatus (r : Repo) (orderID : String) : Option String :=
  (r.findByOrderID orderID).bind (fun b => (b.getItemByOrderID orderID).map BatchItem.status)

def repoBatchStatusOf (r : Repo) (orderID : String) : Option BatchStatus :=
  (r.findByOrderID orderID).map Batch.status

/-! ## Fixtures and claim-support definitions -/

def dmgItem : BatchItem :=
  { orderID := "o1", productID := "p1", quantity := 1, status := "damage_major",
    addedAt := 0, processedAt := none }

def dmgBatch : Batch :=
  { id := "B1", productID := "p1", status := .damaged, items := [dmgItem],
    totalItems := 1, createdAt := 0, updatedAt := 0, processedAt := none }

def dmgState : ServiceState := { repo := [dmgBatch], events := [] }

def resultRepo : Except String ServiceState → Option Repo
  | .ok st => some st.repo
  | .error _ => none

def sampleReading : SensorEvent :=
  { id := "evt_1", timestamp := 0, typ := "sensor_reading",
    source := "temperature_sensor_03", temperature := 5, humidity := 58,
    status := "active" }

/-- Severity rule as the specification words it. -/
def specSeverity (t h : ℚ) : String :=
  if t ≥ 40 ∨ h ≥ 90 then "critical"
  else if t ≥ 30 ∨ h ≥ 80 then "major"
  else "minor"

def emptyOrderState : OrderServiceState := { orders := [], events := [] }

def sampleDamageEvent : OrderDamageEvent :=
  { eventID := "evt_1", typ := "order.damage", source := "detector", occurredAt := 3,
    orderID := "evt_1", severity := "minor", description := "d",
    details := { temperature := 5, humidity := 58, status := "active",
                 mqttTopic := "events/sensor" } }

def c9State : ServiceState := { repo := [], events := [] }

def pendBatch : Batch :=
  { id := "B0", productID := "p1", status := .pending,
    items := [{ orderID := "o1", productID := "p1", quantity := 1,
                status := "allocated", addedAt := 0, processedAt := none }],
    totalItems := 1, createdAt := 0, updatedAt := 0, processedAt := none }

def c1State : ServiceState := { repo := [pendBatch], events := [] }

def c1Event : OrderEvent :=
  { eventType := "order.damage_processed", orderID := "o2",
    order := { id := "o2", customerID := "c", productID := "p1", quantity := 2,
               status := "damage_detected_minor", totalAmount := 0,
               createdAt := 0, updatedAt := 0 },
    timestamp := 0 }

def handleResult (st : ServiceState) (ev : OrderEvent) (now : Nat) : Option Repo :=
  match handleWarehouseOrderEvent st ev now with
  | .ok st1 => some st1.repo
  | .error _ => none

def procBatch : Batch :=
  { id := "BP", productID := "p1", status := .processing,
    items := [{ orderID := "o1", productID := "p1", quantity := 1,
                status := "allocated", addedAt := 0, processedAt := none }],
    totalItems := 1, createdAt := 0, updatedAt := 0, processedAt := none }

def c10State : ServiceState := { repo := [procBatch], events := [] }

def c10Event : OrderEvent :=
  { eventType := "order.returned", orderID := "o1",
    order := { id := "o1", customerID := "c", productID := "p1", quantity := 1,
               status := "shipped", totalAmount := 0, createdAt := 0, updatedAt := 0 },
    timestamp := 0 }

/-! ## Reachable states of the batch service -/

inductive ServiceOp where
  | addOrder (orderID productID : String) (quantity : Int) (status : String)
  | removeOrder (orderID : String)
  | updateStatus (orderID status : String)
  | processB (batchID : String)
  | completeB (batchID : String)
  | cancelB (batchID : String)
  | markDamagedB (batchID : String)
  deriving DecidableEq, Repr

def applyOp (st : ServiceState) : ServiceOp → Nat → Except String ServiceState
  | .addOrder o p q s, now => (addOrderToBatch st o p q s now).map Prod.fst
  | .removeOrder o, now => removeOrderFromBatch st o now
  | .updateStatus o s, now => updateOrderStatus st o s now
  | .processB id, now => processBatch st id now
  | .completeB id, now => completeBatch st id now
  | .cancelB id, now => cancelBatch st id now
  | .markDamagedB id, now => markBatchAsDamaged st id now

/-- A failed service call leaves the repository untouched (every error
path in the Go service returns before `Save`/`Delete`). -/
def stepOp (st : ServiceState) (p : ServiceOp × Nat) : ServiceState :=
  match applyOp st p.1 p.2 with
  | .ok st1 => st1
  | .error _ => st

def runOps (st : ServiceState) : List (ServiceOp × Nat) → ServiceState
  | [] => st
  | p :: rest => runOps (stepOp st p) rest

def BatchWf (b : Batch) : Prop :=
  (∀ i ∈ b.items, i.productID = b.productID) ∧ b.totalItems = b.items.length

def pendPred (p : String) (b : Batch) : Bool :=
  decide (b.productID = p ∧ b.status = BatchStatus.pending)

def pendingCount (r : Repo) (p : String) : Nat := (r.filter (pendPred p)).length

def RepoInv (r : Repo) : Prop :=
  nodupIds r ∧ (∀ b ∈ r, BatchWf b) ∧ ∀ p, pendingCount r p ≤ 1

def c3Ops : List (ServiceOp × Nat) := [(.addOrder "o1" "p1" 1 "allocated", 0)]

def c3Batch : Batch :=
  { id := "BATCH-p1-0", productID := "p1", status := .pending,
    items := [{ orderID := "o1", productID := "p1", quantity := 1,
                status := "allocated", addedAt := 0, processedAt := none }],
    totalItems := 1, createdAt := 0, updatedAt := 0, processedAt := none }

/-! ## Theorems -/

theorem getItemByOrderID_eq_find (b : Batch) (orderID : String) :
    b.getItemByOrderID orderID = b.items.find? (itemPred orderID) := rfl

theorem updItems_orderIDs {orderID : String} {q : Int} {s : String} {t : Nat} :
    ∀ {items l : List BatchItem}, updItems orderID q s t items = some l →
      l.map BatchItem.orderID = items.map BatchItem.orderID := by
  intro items
  induction items with
  | nil => intro l h; simp [updItems] at h
  | cons i rest ih =>
    intro l h
    by_cases hi : i.orderID = orderID
    · simp [updItems, hi] at h
      subst h; simp [hi]
    · simp [updItems, hi] at h
      obtain ⟨l0, hl0, rfl⟩ := h
      simp [ih hl0]

theorem itemPred_pos {orderID : String} {i : BatchItem} (h : i.orderID = orderID) :
    itemPred orderID i = true := by simp [itemPred, h]

theorem itemPred_neg {orderID : String} {i : BatchItem} (h : i.orderID ≠ orderID) :
    ¬ itemPred orderID i = true := by simp [itemPred, h]

theorem updItems_none {orderID : String} {q : Int} {s : String} {t : Nat} :
    ∀ {items : List BatchItem}, updItems orderID q s t items = none →
      ∀ i ∈ items, i.orderID ≠ orderID := by
  intro items
  induction items with
  | nil => intro _ i hi; simp at hi
  | cons i rest ih =>
    intro h j hj
    by_cases hi : i.orderID = orderID
    · simp [updItems, hi] at h
    · simp [updItems, hi] at h
      cases List.mem_cons.mp hj with
      | inl heq => subst heq; exact hi
      | inr hmem => exact ih h j hmem

theorem forallTwoRefl {α : Type} (R : α → α → Prop) (h : ∀ a, R a a) :
    ∀ l : List α, List.Forall₂ R l l := by
  intro l
  induction l with
  | nil => exact List.Forall₂.nil
  | cons a rest ih => exact List.Forall₂.cons (h a) ih

theorem updItems_getItem {orderID : String} {q : Int} {s : String} {t : Nat} :
    ∀ {items l : List BatchItem}, updItems orderID q s t items = some l →
      ∃ j, l.find? (itemPred orderID) = some j ∧ j.orderID = orderID ∧
        j.quantity = q ∧ j.status = s ∧ j.addedAt = t := by
  intro items
  induction items with
  | nil => intro l h; simp [updItems] at h
  | cons i rest ih =>
    intro l h
    by_cases hi : i.orderID = orderID
    · simp only [updItems, if_pos hi, Option.some.injEq] at h
      refine ⟨{ i with quantity := q, status := s, addedAt := t }, ?_, hi, rfl, rfl, rfl⟩
      rw [← h]
      exact List.find?_cons_of_pos _ (itemPred_pos hi)
    · simp only [updItems, if_neg hi, Option.map_eq_some'] at h
      obtain ⟨l0, hl0, rfl⟩ := h
      obtain ⟨j, hj, hprops⟩ := ih hl0
      refine ⟨j, ?_, hprops⟩
      rw [List.find?_cons_of_neg _ (itemPred_neg hi)]
      exact hj

theorem updItems_append_fresh {orderID : String} {q : Int} {s : String} {t : Nat}
    (new : BatchItem) (hnew : new.orderID = orderID) :
    ∀ {items : List BatchItem}, (∀ i ∈ items, i.orderID ≠ orderID) →
      updItems orderID q s t (items ++ [new]) =
        some (items ++ [{ new with quantity := q, status := s, addedAt := t }]) := by
  intro items
  induction items with
  | nil => intro _; simp [updItems, hnew]
  | cons i rest ih =>
    intro h
    have hi : i.orderID ≠ orderID := h i (by simp)
    have hr := ih (fun j hj => h j (by simp [hj]))
    simp only [List.cons_append]
    simp [updItems, hi, hr]

theorem removeFirstItem_isSome {o : String} :
    ∀ {items : List BatchItem}, (items.find? (itemPred o)).isSome →
      (removeFirstItem o items).isSome := by
  intro items
  induction items with
  | nil => intro h; simp [List.find?] at h
  | cons i rest ih =>
    intro h
    by_cases hi : i.orderID = o
    · simp [removeFirstItem, hi]
    · rw [List.find?_cons_of_neg _ (itemPred_neg hi)] at h
      have h2 := ih h
      simp only [removeFirstItem, if_neg hi]
      cases h3 : removeFirstItem o rest with
      | none => rw [h3] at h2; simp at h2
      | some l => simp

theorem removeFirstItem_sublist {orderID : String} :
    ∀ {items l : List BatchItem}, removeFirstItem orderID items = some l →
      l.Sublist items := by
  intro items
  induction items with
  | nil => intro l h; simp [removeFirstItem] at h
  | cons i rest ih =>
    intro l h
    by_cases hi : i.orderID = orderID
    · simp [removeFirstItem, hi] at h
      subst h; exact List.sublist_cons_self i rest
    · simp [removeFirstItem, hi] at h
      obtain ⟨l0, hl0, rfl⟩ := h
      exact (ih hl0).cons₂ i

theorem updItemStatus_shape {orderID s : String} {t : Nat} :
    ∀ {items l : List BatchItem}, updItemStatus orderID s t items = some l →
      List.Forall₂ (fun ni oi => ni.orderID = oi.orderID ∧ ni.productID = oi.productID ∧
        ni.quantity = oi.quantity ∧ ni.addedAt = oi.addedAt) l items := by
  intro items
  induction items with
  | nil => intro l h; simp [updItemStatus] at h
  | cons i rest ih =>
    intro l h
    by_cases hi : i.orderID = orderID
    · simp only [updItemStatus, if_pos hi, Option.some.injEq] at h
      rw [← h]
      exact List.Forall₂.cons ⟨rfl, rfl, rfl, rfl⟩
        (forallTwoRefl _ (fun a => ⟨rfl, rfl, rfl, rfl⟩) rest)
    · simp only [updItemStatus, if_neg hi, Option.map_eq_some'] at h
      obtain ⟨l0, hl0, rfl⟩ := h
      exact List.Forall₂.cons ⟨rfl, rfl, rfl, rfl⟩ (ih hl0)

theorem updItemStatus_orderIDs {orderID s : String} {t : Nat} :
    ∀ {items l : List BatchItem}, updItemStatus orderID s t items = some l →
      l.map BatchItem.orderID = items.map BatchItem.orderID := by
  intro items
  induction items with
  | nil => intro l h; simp [updItemStatus] at h
  | cons i rest ih =>
    intro l h
    by_cases hi : i.orderID = orderID
    · simp only [updItemStatus, if_pos hi, Option.some.injEq] at h
      rw [← h]
      simp
    · simp only [updItemStatus, if_neg hi, Option.map_eq_some'] at h
      obtain ⟨l0, hl0, rfl⟩ := h
      simp [ih hl0]

theorem updItemStatus_isSome {o s : String} {t : Nat} :
    ∀ {items : List BatchItem}, (items.find? (itemPred o)).isSome →
      (updItemStatus o s t items).isSome := by
  intro items
  induction items with
  | nil => intro h; simp [List.find?] at h
  | cons i rest ih =>
    intro h
    by_cases hi : i.orderID = o
    · simp [updItemStatus, hi]
    · rw [List.find?_cons_of_neg _ (itemPred_neg hi)] at h
      have h2 := ih h
      simp only [updItemStatus, if_neg hi]
      cases h3 : updItemStatus o s t rest with
      | none => rw [h3] at h2; simp at h2
      | some l => simp

theorem updItemStatus_getItem {orderID s : String} {t : Nat} :
    ∀ {items l : List BatchItem}, updItemStatus orderID s t items = some l →
      ∃ j, l.find? (itemPred orderID) = some j ∧ j.orderID = orderID ∧ j.status = s := by
  intro items
  induction items with
  | nil => intro l h; simp [updItemStatus] at h
  | cons i rest ih =>
    intro l h
    by_cases hi : i.orderID = orderID
    · simp only [updItemStatus, if_pos hi, Option.some.injEq] at h
      subst h
      exact ⟨_, List.find?_cons_of_pos _ (itemPred_pos hi), hi, rfl⟩
    · simp only [updItemStatus, if_neg hi, Option.map_eq_some'] at h
      obtain ⟨l0, hl0, rfl⟩ := h
      obtain ⟨j, hj, hprops⟩ := ih hl0
      refine ⟨j, ?_, hprops⟩
      rw [List.find?_cons_of_neg _ (itemPred_neg hi)]
      exact hj

/-! ## Lemmas about the repository list (save / delete / find) -/

theorem mem_save {r : Repo} {b c : Batch} (h : c ∈ Repo.save r b) : c = b ∨ c ∈ r := by
  induction r with
  | nil => simp [Repo.save] at h; exact Or.inl h
  | cons x rest ih =>
    by_cases hx : x.id = b.id
    · simp only [Repo.save, if_pos hx] at h
      cases List.mem_cons.mp h with
      | inl heq => exact Or.inl heq
      | inr hmem => exact Or.inr (List.mem_cons_of_mem x hmem)
    · simp only [Repo.save, if_neg hx] at h
      cases List.mem_cons.mp h with
      | inl heq => exact Or.inr (heq ▸ List.mem_cons_self x rest)
      | inr hmem =>
        cases ih hmem with
        | inl heq => exact Or.inl heq
        | inr hmem2 => exact Or.inr (List.mem_cons_of_mem x hmem2)

theorem self_mem_save (r : Repo) (b : Batch) : b ∈ Repo.save r b := by
  induction r with
  | nil => simp [Repo.save]
  | cons x rest ih =>
    by_cases hx : x.id = b.id
    · simp [Repo.save, hx]
    · simp only [Repo.save, if_neg hx]
      exact List.mem_cons_of_mem x ih

theorem ids_save_subset {r : Repo} {b : Batch} {y : String}
    (h : y ∈ (Repo.save r b).map Batch.id) : y ∈ r.map Batch.id ∨ y = b.id := by
  simp only [List.mem_map] at h
  obtain ⟨c, hc, rfl⟩ := h
  cases mem_save hc with
  | inl heq => exact Or.inr (by rw [heq])
  | inr hmem => exact Or.inl (List.mem_map_of_mem Batch.id hmem)

theorem nodup_save {r : Repo} (b : Batch) (h : nodupIds r) : nodupIds (Repo.save r b) := by
  induction r with
  | nil => simp [Repo.save, nodupIds]
  | cons x rest ih =>
    rw [nodupIds, List.map_cons, List.nodup_cons] at h
    by_cases hx : x.id = b.id
    · simp only [Repo.save, if_pos hx]
      rw [nodupIds, List.map_cons, List.nodup_cons]
      exact ⟨by rw [← hx]; exact h.1, h.2⟩
    · simp only [Repo.save, if_neg hx]
      rw [nodupIds, List.map_cons, List.nodup_cons]
      refine ⟨fun hmem => ?_, ih h.2⟩
      cases ids_save_subset hmem with
      | inl hin => exact h.1 hin
      | inr heq => exact hx heq

theorem mem_delete {r : Repo} {id : String} {c : Batch} (h : c ∈ Repo.delete r id) :
    c ∈ r := by
  induction r with
  | nil => simp [Repo.delete] at h
  | cons x rest ih =>
    by_cases hx : x.id = id
    · simp only [Repo.delete, if_pos hx] at h
      exact List.mem_cons_of_mem x h
    · simp only [Repo.delete, if_neg hx] at h
      cases List.mem_cons.mp h with
      | inl heq => exact heq ▸ List.mem_cons_self x rest
      | inr hmem => exact List.mem_cons_of_mem x (ih hmem)

theorem nodup_delete {r : Repo} (id : String) (h : nodupIds r) :
    nodupIds (Repo.delete r id) := by
  induction r with
  | nil => simp [Repo.delete, nodupIds]
  | cons x rest ih =>
    rw [nodupIds, List.map_cons, List.nodup_cons] at h
    by_cases hx : x.id = id
    · simp only [Repo.delete, if_pos hx]
      exact h.2
    · simp only [Repo.delete, if_neg hx]
      rw [nodupIds, List.map_cons, List.nodup_cons]
      refine ⟨fun hmem => ?_, ih h.2⟩
      simp only [List.mem_map] at hmem
      obtain ⟨c, hc, heq⟩ := hmem
      exact h.1 (by rw [← heq]; exact List.mem_map_of_mem Batch.id (mem_delete hc))

theorem findByID_save (r : Repo) (b : Batch) :
    (Repo.save r b).findByID b.id = some b := by
  induction r with
  | nil => simp [Repo.save, Repo.findByID, List.find?]
  | cons x rest ih =>
    by_cases hx : x.id = b.id
    · simp [Repo.save, hx, Repo.findByID, List.find?]
    · simp only [Repo.save, if_neg hx, Repo.findByID]
      rw [List.find?_cons_of_neg _ (by simp [hx])]
      exact ih

theorem find_save_of_none {r : Repo} {Q : Batch → Bool} {b : Batch}
    (hf : r.find? Q = none) (hQ : Q b = true) :
    (Repo.save r b).find? Q = some b := by
  induction r with
  | nil => simp [Repo.save, List.find?, hQ]
  | cons x rest ih =>
    rw [List.find?_cons] at hf
    cases hqx : Q x with
    | true => rw [hqx] at hf; simp at hf
    | false =>
      rw [hqx] at hf; simp only at hf
      by_cases hx : x.id = b.id
      · simp only [Repo.save, if_pos hx]
        exact List.find?_cons_of_pos _ hQ
      · simp only [Repo.save, if_neg hx]
        rw [List.find?_cons_of_neg _ (by simp [hqx])]
        exact ih hf

theorem find_save_of_hit {r : Repo} {Q : Batch → Bool} {b0 b : Batch}
    (hnd : nodupIds r) (hf : r.find? Q = some b0) (hid : b.id = b0.id)
    (hQ : Q b = true) : (Repo.save r b).find? Q = some b := by
  induction r with
  | nil => simp [List.find?] at hf
  | cons x rest ih =>
    rw [nodupIds, List.map_cons, List.nodup_cons] at hnd
    rw [List.find?_cons] at hf
    cases hqx : Q x with
    | true =>
      rw [hqx] at hf
      simp only [Option.some.injEq] at hf
      subst hf
      simp only [Repo.save, if_pos (hid.symm : x.id = b.id).symm]
      rw [if_pos (hid ▸ rfl : x.id = b.id)]
      exact List.find?_cons_of_pos _ hQ
    | false =>
      rw [hqx] at hf; simp only at hf
      have hb0mem : b0 ∈ rest := List.mem_of_find?_eq_some hf
      have hxne : x.id ≠ b.id := by
        rw [hid]
        intro hcon
        exact hnd.1 (hcon ▸ List.mem_map_of_mem Batch.id hb0mem)
      simp only [Repo.save, if_neg hxne]
      rw [List.find?_cons_of_neg _ (by simp [hqx])]
      exact ih hnd.2 hf

theorem find_save_keep {r : Repo} {Q : Batch → Bool} {c b : Batch}
    (hf : r.find? Q = some c) (hne : c.id ≠ b.id)
    (hdanger : ∀ x ∈ r, x.id = b.id → Q b = true → Q x = true) :
    (Repo.save r b).find? Q = some c := by
  induction r with
  | nil => simp [List.find?] at hf
  | cons x rest ih =>
    rw [List.find?_cons] at hf
    cases hqx : Q x with
    | true =>
      rw [hqx] at hf
      simp only [Option.some.injEq] at hf
      subst hf
      have hxne : x.id ≠ b.id := hne
      simp only [Repo.save, if_neg hxne]
      exact List.find?_cons_of_pos _ hqx
    | false =>
      rw [hqx] at hf; simp only at hf
      by_cases hx : x.id = b.id
      · simp only [Repo.save, if_pos hx]
        have hqb : Q b = false := by
          cases hqb : Q b with
          | false => rfl
          | true =>
            have := hdanger x (List.mem_cons_self x rest) hx hqb
            rw [hqx] at this; exact absurd this (by simp)
        rw [List.find?_cons_of_neg _ (by simp [hqb])]
        exact hf
      · simp only [Repo.save, if_neg hx]
        rw [List.find?_cons_of_neg _ (by simp [hqx])]
        exact ih hf (fun y hy => hdanger y (List.mem_cons_of_mem x hy))

theorem find_delete_none {r : Repo} {id : String} (hnd : nodupIds r) :
    (Repo.delete r id).findByID id = none := by
  induction r with
  | nil => simp [Repo.delete, Repo.findByID, List.find?]
  | cons x rest ih =>
    rw [nodupIds, List.map_cons, List.nodup_cons] at hnd
    by_cases hx : x.id = id
    · simp only [Repo.delete, if_pos hx]
      rw [Repo.findByID, List.find?_eq_none]
      intro c hc
      simp only [decide_eq_true_eq]
      intro hcid
      exact hnd.1 (by rw [hx, ← hcid]; exact List.mem_map_of_mem Batch.id hc)
    · simp only [Repo.delete, if_neg hx, Repo.findByID]
      rw [List.find?_cons_of_neg _ (by simp [hx])]
      exact ih hnd.2

theorem save_save {r : Repo} {b b' : Batch} (hid : b'.id = b.id) :
    Repo.save (Repo.save r b) b' = Repo.save r b' := by
  induction r with
  | nil => simp [Repo.save, hid]
  | cons x rest ih =>
    by_cases hx : x.id = b.id
    · simp only [Repo.save, if_pos hx, if_pos hid.symm, if_pos (hx.trans hid.symm)]
    · have hx2 : ¬ x.id = b'.id := fun hcon => hx (hcon.trans hid)
      simp only [Repo.save, if_neg hx, if_neg hx2, ih]

theorem length_save_of_found {r : Repo} {b : Batch}
    (h : ∃ x ∈ r, x.id = b.id) : (Repo.save r b).length = r.length := by
  induction r with
  | nil => simp at h
  | cons x rest ih =>
    by_cases hx : x.id = b.id
    · simp [Repo.save, hx]
    · obtain ⟨y, hy, hyid⟩ := h
      have hyrest : y ∈ rest := by
        cases List.mem_cons.mp hy with
        | inl heq => exact absurd (heq ▸ hyid) hx
        | inr hmem => exact hmem
      simp only [Repo.save, if_neg hx, List.length_cons]
      rw [ih ⟨y, hyrest, hyid⟩]

theorem mem_id_unique {r : Repo} (hnd : nodupIds r) {x y : Batch}
    (hx : x ∈ r) (hy : y ∈ r) (hid : x.id = y.id) : x = y := by
  induction r with
  | nil => simp at hx
  | cons z rest ih =>
    rw [nodupIds, List.map_cons, List.nodup_cons] at hnd
    cases List.mem_cons.mp hx with
    | inl hxe =>
      cases List.mem_cons.mp hy with
      | inl hye => rw [hxe, hye]
      | inr hymem =>
        exact absurd (by rw [← hxe, hid]; exact List.mem_map_of_mem Batch.id hymem) hnd.1
    | inr hxmem =>
      cases List.mem_cons.mp hy with
      | inl hye =>
        exact absurd (by rw [← hye, ← hid]; exact List.mem_map_of_mem Batch.id hxmem) hnd.1
      | inr hymem => exact ih hnd.2 hxmem hymem


/-! ## Batch-level postcondition lemmas -/

theorem hasOrder_iff_mem_map {b : Batch} {oid : String} :
    b.hasOrder oid = true ↔ oid ∈ b.items.map BatchItem.orderID := by
  rw [Batch.hasOrder, Batch.getItemByOrderID]
  rw [show (fun i => decide (i.orderID = oid)) = itemPred oid from rfl]
  rw [Option.isSome_iff_exists]
  constructor
  · rintro ⟨j, hj⟩
    have hmem := List.mem_of_find?_eq_some hj
    have hpred := List.find?_some hj
    simp only [itemPred, decide_eq_true_eq] at hpred
    exact hpred ▸ List.mem_map_of_mem BatchItem.orderID hmem
  · intro hmem
    simp only [List.mem_map] at hmem
    obtain ⟨i, hi, hieq⟩ := hmem
    have : (b.items.find? (itemPred oid)).isSome := by
      rw [List.find?_isSome]
      exact ⟨i, hi, by simp [itemPred, hieq]⟩
    exact Option.isSome_iff_exists.mp this

theorem find?_append_of_none {α : Type} {p : α → Bool} {l1 l2 : List α}
    (h : l1.find? p = none) : (l1 ++ l2).find? p = l2.find? p := by
  induction l1 with
  | nil => simp
  | cons x rest ih =>
    rw [List.find?_cons] at h
    cases hx : p x with
    | true => rw [hx] at h; simp at h
    | false =>
      rw [hx] at h; simp only at h
      rw [List.cons_append, List.find?_cons_of_neg _ (by simp [hx])]
      exact ih h

theorem addItem_post {b b2 : Batch} {o p : String} {q : Int} {s : String} {t : Nat}
    (hok : b.addItem o p q s t = .ok b2) :
    b2.id = b.id ∧ b2.productID = b.productID ∧ b2.status = b.status ∧
    b2.createdAt = b.createdAt ∧
    (∃ j, b2.getItemByOrderID o = some j ∧ j.orderID = o ∧ j.status = s ∧ j.quantity = q) ∧
    (∀ oid, b2.hasOrder oid = true → oid = o ∨ b.hasOrder oid = true) := by
  rw [Batch.addItem] at hok
  by_cases hp : b.productID ≠ p
  · rw [if_pos hp] at hok; exact absurd hok (by simp)
  · rw [if_neg hp] at hok
    by_cases hguard : b.status = .completed ∨ b.status = .cancelled
    · rw [if_pos hguard] at hok; exact absurd hok (by simp)
    · rw [if_neg hguard] at hok
      cases hupd : updItems o q s t b.items with
      | some l =>
        rw [hupd] at hok
        simp only [Except.ok.injEq] at hok
        subst hok
        obtain ⟨j, hj, hjo, hjq, hjs, hjt⟩ := updItems_getItem hupd
        refine ⟨rfl, rfl, rfl, rfl, ⟨j, hj, hjo, hjs, hjq⟩, ?_⟩
        intro oid hmem
        right
        rw [hasOrder_iff_mem_map] at hmem ⊢
        simpa [updItems_orderIDs hupd] using hmem
      | none =>
        rw [hupd] at hok
        simp only [Except.ok.injEq] at hok
        subst hok
        have hfresh := updItems_none hupd
        have hnone : List.find? (itemPred o) b.items = none := by
          rw [List.find?_eq_none]
          intro i hi
          simp [itemPred, hfresh i hi]
        refine ⟨rfl, rfl, rfl, rfl, ?_, ?_⟩
        · refine ⟨{ orderID := o, productID := p, quantity := q, status := s, addedAt := t, processedAt := none }, ?_, rfl, rfl, rfl⟩
          rw [Batch.getItemByOrderID]
          rw [show (fun i => decide (i.orderID = o)) = itemPred o from rfl]
          show List.find? (itemPred o) (b.items ++ [_]) = _
          rw [find?_append_of_none hnone]
          exact List.find?_cons_of_pos _ (by simp [itemPred])
        · intro oid hmem
          rw [hasOrder_iff_mem_map] at hmem
          simp only [List.map_append, List.mem_append, List.map_cons, List.map_nil,
            List.mem_cons] at hmem
          rcases hmem with hin | hlast
          · exact Or.inr (hasOrder_iff_mem_map.mpr hin)
          · rcases hlast with heq | hfalse
            · exact Or.inl heq
            · simp at hfalse

theorem addItem_isOk {b : Batch} {o p : String} {q : Int} {s : String} {t : Nat}
    (hp : b.productID = p) (hc1 : b.status ≠ .completed) (hc2 : b.status ≠ .cancelled) :
    ∃ b2, b.addItem o p q s t = .ok b2 := by
  rw [Batch.addItem]
  rw [if_neg (by simp [hp])]
  rw [if_neg (by simp [hc1, hc2])]
  cases hupd : updItems o q s t b.items with
  | some l => exact ⟨_, rfl⟩
  | none => exact ⟨_, rfl⟩

/-! ## Equality up to timestamps (for the idempotence claim) -/

theorem itemEqUpTo_refl (a : BatchItem) : itemEqUpTo a a := ⟨rfl, rfl, rfl, rfl, rfl⟩

theorem batchEqUpTo_refl (b : Batch) : batchEqUpTo b b :=
  ⟨rfl, rfl, rfl, rfl, rfl, rfl, forallTwoRefl _ itemEqUpTo_refl b.items⟩

theorem updItems_again {o : String} {q : Int} {s : String} {u v : Nat} :
    ∀ {items l : List BatchItem}, updItems o q s u items = some l →
      ∃ l2, updItems o q s v l = some l2 ∧ List.Forall₂ itemEqUpTo l2 l := by
  intro items
  induction items with
  | nil => intro l h; simp [updItems] at h
  | cons i rest ih =>
    intro l h
    by_cases hi : i.orderID = o
    · simp only [updItems, if_pos hi, Option.some.injEq] at h
      subst h
      refine ⟨{ i with quantity := q, status := s, addedAt := v } :: rest, ?_, ?_⟩
      · have hcond : ({ i with quantity := q, status := s, addedAt := u } :
          BatchItem).orderID = o := hi
        simp only [updItems, if_pos hcond]
      · exact List.Forall₂.cons ⟨rfl, rfl, rfl, rfl, rfl⟩ (forallTwoRefl _ itemEqUpTo_refl rest)
    · simp only [updItems, if_neg hi, Option.map_eq_some'] at h
      obtain ⟨l0, hl0, rfl⟩ := h
      obtain ⟨l2, hl2, heq⟩ := ih hl0
      refine ⟨i :: l2, ?_, List.Forall₂.cons (itemEqUpTo_refl i) heq⟩
      simp [updItems, hi, hl2]

theorem addItem_unfold_upd {b : Batch} {o p : String} {q : Int} {s : String} {t : Nat}
    {l2 : List BatchItem} (hp : b.productID = p)
    (hc : ¬(b.status = .completed ∨ b.status = .cancelled))
    (hupd : updItems o q s t b.items = some l2) :
    b.addItem o p q s t = .ok { b with items := l2, updatedAt := t } := by
  rw [Batch.addItem, if_neg (show ¬ b.productID ≠ p by simp [hp]), if_neg hc, hupd]

theorem addItem_again {b b1 : Batch} {o p : String} {q : Int} {s : String} {u v : Nat}
    (hok : b.addItem o p q s u = .ok b1) :
    ∃ b2, b1.addItem o p q s v = .ok b2 ∧ batchEqUpTo b2 b1 := by
  rw [Batch.addItem] at hok
  by_cases hp : b.productID ≠ p
  · rw [if_pos hp] at hok; exact absurd hok (by simp)
  rw [if_neg hp] at hok
  by_cases hguard : b.status = .completed ∨ b.status = .cancelled
  · rw [if_pos hguard] at hok; exact absurd hok (by simp)
  rw [if_neg hguard] at hok
  push_neg at hp
  cases hupd : updItems o q s u b.items with
  | some l =>
    rw [hupd] at hok
    simp only [Except.ok.injEq] at hok
    subst hok
    obtain ⟨l2, hl2, heq⟩ := updItems_again (v := v) hupd
    exact ⟨_, addItem_unfold_upd hp hguard hl2, ⟨rfl, rfl, rfl, rfl, rfl, rfl, heq⟩⟩
  | none =>
    rw [hupd] at hok
    simp only [Except.ok.injEq] at hok
    subst hok
    have hfresh := updItems_none hupd
    have happ := updItems_append_fresh (t := v) (q := q) (s := s)
      { orderID := o, productID := p, quantity := q, status := s,
        addedAt := u, processedAt := none } rfl hfresh
    refine ⟨_, addItem_unfold_upd hp hguard happ, ?_⟩
    refine ⟨rfl, rfl, rfl, rfl, rfl, rfl, ?_⟩
    exact List.rel_append (forallTwoRefl _ itemEqUpTo_refl b.items)
      (List.Forall₂.cons ⟨rfl, rfl, rfl, rfl, rfl⟩ List.Forall₂.nil)

/-! ## Service-level postcondition lemmas -/

theorem updateOrderStatus_err {st : ServiceState} {o s : String} {t : Nat}
    (hf : st.repo.findByOrderID o = none) :
    updateOrderStatus st o s t = .error ("failed to find batch for order " ++ o) := by
  rw [updateOrderStatus, hf]

theorem updateOrderStatus_ok {st : ServiceState} {o s : String} {t : Nat} {b : Batch}
    (hf : st.repo.findByOrderID o = some b) :
    ∃ st1 l, updateOrderStatus st o s t = .ok st1 ∧
      updItemStatus o s t b.items = some l ∧
      st1.repo = st.repo.save { b with items := l, updatedAt := t } := by
  have hb : b.hasOrder o = true := by
    have h2 : List.find? (fun x => Batch.hasOrder x o) st.repo = some b := hf
    exact List.find?_some (p := fun x => Batch.hasOrder x o) h2
  rw [Batch.hasOrder, Batch.getItemByOrderID] at hb
  have hsome := updItemStatus_isSome (o := o) (s := s) (t := t) hb
  obtain ⟨l, hl⟩ := Option.isSome_iff_exists.mp hsome
  refine ⟨{ repo := st.repo.save { b with items := l, updatedAt := t },
            events :=
              match ({ b with items := l, updatedAt := t } : Batch).getItemByOrderID o with
              | some item =>
                  st.events ++
                    [newBatchItemUpdatedEvent { b with items := l, updatedAt := t } o item t]
              | none => st.events },
    l, ?_, hl, rfl⟩
  simp only [updateOrderStatus, hf, Batch.updateItemStatus, hl]

theorem markBatchAsDamaged_ok {st : ServiceState} {bid : String} {t : Nat} {b : Batch}
    (hf : st.repo.findByID bid = some b) :
    markBatchAsDamaged st bid t =
      .ok { repo := st.repo.save { b with status := .damaged, updatedAt := t },
            events := st.events ++
              [newBatchDamagedEvent { b with status := .damaged, updatedAt := t } t] } := by
  rw [markBatchAsDamaged, hf]
  rfl

theorem addOrderToBatch_post (st : ServiceState) (o p : String) (q : Int) (s : String)
    (now : Nat) :
    ∃ st1 b1, addOrderToBatch st o p q s now = .ok (st1, b1) ∧
      st1.repo = st.repo.save b1 ∧ b1.productID = p ∧ b1.status = .pending ∧
      (∃ j, b1.getItemByOrderID o = some j ∧ j.orderID = o ∧ j.status = s ∧ j.quantity = q) ∧
      (∀ oid, b1.hasOrder oid = true →
        oid = o ∨ ∃ b0, st.repo.findPendingBatchForProduct p = some b0 ∧
          b0.hasOrder oid = true) ∧
      (∀ b0, st.repo.findPendingBatchForProduct p = some b0 → b1.id = b0.id) ∧
      (st.repo.findPendingBatchForProduct p = none → b1.id = generateBatchID p now) ∧
      (∃ b0, (b0 ∈ st.repo ∨ b0 = newBatch (generateBatchID p now) p now) ∧
        b0.addItem o p q s now = .ok b1) := by
  cases hfind : st.repo.findPendingBatchForProduct p with
  | some b0 =>
    have hpred := List.find?_some hfind
    simp only [decide_eq_true_eq] at hpred
    obtain ⟨b1, hadd⟩ := addItem_isOk (b := b0) (o := o) (q := q) (s := s) (t := now)
      hpred.1 (by rw [hpred.2]; simp) (by rw [hpred.2]; simp)
    obtain ⟨hid, hprod, hstat, _, ⟨j, hj, hjo, hjs, hjq⟩, hord⟩ := addItem_post hadd
    have heq : addOrderToBatch st o p q s now =
        .ok ({ repo := st.repo.save b1,
               events := st.events ++ [newBatchItemAddedEvent b1 o j now] }, b1) := by
      simp only [addOrderToBatch, hfind, Option.getD_some, Option.isNone_some, hadd, hj,
        Bool.false_eq_true, if_false]
    refine ⟨_, b1, heq, rfl, by rw [hprod, hpred.1], by rw [hstat, hpred.2],
      ⟨j, hj, hjo, hjs, hjq⟩, ?_, ?_, ?_,
      ⟨b0, Or.inl (List.mem_of_find?_eq_some hfind), hadd⟩⟩
    · intro oid hmem
      cases hord oid hmem with
      | inl heq => exact Or.inl heq
      | inr hb0 => exact Or.inr ⟨b0, rfl, hb0⟩
    · intro b0x hb0x
      simp only [Option.some.injEq] at hb0x
      rw [← hb0x, hid]
    · intro hcon; exact absurd hcon (by simp)
  | none =>
    obtain ⟨b1, hadd⟩ := addItem_isOk (b := newBatch (generateBatchID p now) p now)
      (o := o) (q := q) (s := s) (t := now)
      (show (newBatch (generateBatchID p now) p now).productID = p from rfl)
      (by simp [newBatch]) (by simp [newBatch])
    obtain ⟨hid, hprod, hstat, _, ⟨j, hj, hjo, hjs, hjq⟩, hord⟩ := addItem_post hadd
    have heq : addOrderToBatch st o p q s now =
        .ok ({ repo := st.repo.save b1,
               events := (st.events ++ [newBatchCreatedEvent b1 now]) ++
                 [newBatchItemAddedEvent b1 o j now] }, b1) := by
      simp only [addOrderToBatch, hfind, Option.getD_none, Option.isNone_none, hadd, hj,
        eq_self_iff_true, if_true]
    refine ⟨_, b1, heq, rfl, hprod, hstat, ⟨j, hj, hjo, hjs, hjq⟩, ?_, ?_, ?_,
      ⟨newBatch (generateBatchID p now) p now, Or.inr rfl, hadd⟩⟩
    · intro oid hmem
      cases hord oid hmem with
      | inl heq => exact Or.inl heq
      | inr hb0 =>
        rw [hasOrder_iff_mem_map] at hb0
        simp [newBatch] at hb0
    · intro b0x hb0x; exact absurd hb0x (by simp)
    · intro _; exact hid

/-! ## C4: the damaged state in the batch state machine -/

/-- C4 counterexample: the claim says a damaged batch is terminal and that
adding or removing items fails with a domain error.  On the code, `Cancel`
succeeds on a damaged batch and changes its status to cancelled, and both
`AddItem` and `RemoveItem` succeed and mutate the batch. -/
theorem c4_claim_counterexample :
    dmgBatch.cancel 5 = .ok { dmgBatch with status := .cancelled, updatedAt := 5 } ∧
    exceptOk (dmgBatch.addItem "o2" "p1" 2 "allocated" 5) = true ∧
    exceptOk (dmgBatch.removeItem "o1" 5) = true := by
  refine ⟨?_, ?_, ?_⟩ <;> rfl

/-- C4 (amended): for a damaged batch, `StartProcessing` and `Complete`
fail with a domain error, but `Cancel` succeeds and moves the batch to
cancelled, `MarkAsDamaged` succeeds, items with the batch's product id can
always be added, and any contained item can be removed. -/
theorem c4_amended (b : Batch) (now : Nat) (h : b.status = .damaged) :
    exceptOk (b.startProcessing now) = false ∧
    exceptOk (b.complete now) = false ∧
    b.cancel now = .ok { b with status := .cancelled, updatedAt := now } ∧
    b.markAsDamaged now = .ok { b with status := .damaged, updatedAt := now } ∧
    (∀ oid q s, exceptOk (b.addItem oid b.productID q s now) = true) ∧
    (∀ oid, b.hasOrder oid = true → exceptOk (b.removeItem oid now) = true) := by
  refine ⟨?_, ?_, ?_, ?_, ?_, ?_⟩
  · simp [Batch.startProcessing, h, exceptOk]
  · simp [Batch.complete, h, exceptOk]
  · rw [Batch.cancel, if_neg (by rw [h]; simp)]
  · rfl
  · intro oid q s
    obtain ⟨b2, hb2⟩ := addItem_isOk rfl (by rw [h]; simp) (by rw [h]; simp)
    rw [hb2]; rfl
  · intro oid hord
    rw [Batch.hasOrder, Batch.getItemByOrderID] at hord
    have h2 := removeFirstItem_isSome (o := oid) hord
    obtain ⟨l, hl⟩ := Option.isSome_iff_exists.mp h2
    rw [Batch.removeItem, if_neg (by rw [h]; simp), hl]
    rfl

theorem c4_amended_witness :
    dmgBatch.status = .damaged ∧
    exceptOk (dmgBatch.startProcessing 5) = false ∧
    dmgBatch.cancel 5 = .ok { dmgBatch with status := .cancelled, updatedAt := 5 } ∧
    exceptOk (dmgBatch.addItem "o2" dmgBatch.productID 2 "x" 5) = true := by
  have h := c4_amended dmgBatch 5 rfl
  exact ⟨rfl, h.1, h.2.2.1, h.2.2.2.2.1 "o2" 2 "x"⟩

/-! ## C5: removal of the last item -/

/-- C5 counterexample: the claim says a batch in a damaged (or terminal)
state is retained as an empty record when its last item is removed.  On
the code, removing the only item of a damaged batch succeeds and the
emptied batch is deleted from the repository. -/
theorem c5_claim_counterexample :
    dmgBatch.status = .damaged ∧
    resultRepo (removeOrderFromBatch dmgState "o1" 1) = some [] := by
  exact ⟨rfl, rfl⟩

/-- C5 (amended): when `RemoveOrderFromBatch` removes the last item of a
batch it deletes the batch from the repository regardless of the batch's
status (pending, processing, cancelled or damaged alike); for a completed
batch the removal itself fails with a domain error, so a completed batch
is never emptied, and no empty batch is ever retained. -/
theorem c5_amended (st : ServiceState) (o : String) (now : Nat) (b : Batch)
    (i : BatchItem) (hnd : nodupIds st.repo)
    (hf : st.repo.findByOrderID o = some b) (hitems : b.items = [i]) :
    (b.status = .completed → removeOrderFromBatch st o now =
      .error ("failed to remove order from batch: cannot remove items from completed batch")) ∧
    (b.status ≠ .completed → ∃ st1, removeOrderFromBatch st o now = .ok st1 ∧
      st1.repo = st.repo.delete b.id ∧ st1.repo.findByID b.id = none) := by
  have hord : b.hasOrder o = true := by
    have h2 : List.find? (fun x => Batch.hasOrder x o) st.repo = some b := hf
    exact List.find?_some (p := fun x => Batch.hasOrder x o) h2
  rw [Batch.hasOrder, Batch.getItemByOrderID, hitems] at hord
  have hio : i.orderID = o := by
    rw [Option.isSome_iff_exists] at hord
    obtain ⟨j, hj⟩ := hord
    have hpj := List.find?_some hj
    have hmem := List.mem_of_find?_eq_some hj
    simp only [List.mem_singleton] at hmem
    subst hmem
    simpa using hpj
  constructor
  · intro hcomp
    have hrem : b.removeItem o now = .error "cannot remove items from completed batch" := by
      rw [Batch.removeItem, if_pos hcomp]
    simp only [removeOrderFromBatch, hf, hrem]
    rfl
  · intro hcomp
    have hfi : removeFirstItem o b.items = some [] := by
      rw [hitems]; simp [removeFirstItem, hio]
    have hrem : b.removeItem o now =
        .ok { b with items := [], totalItems := 0, updatedAt := now } := by
      rw [Batch.removeItem, if_neg hcomp, hfi]
      rfl
    have heq : removeOrderFromBatch st o now =
        .ok { repo := st.repo.delete b.id,
              events := st.events ++
                [newBatchItemRemovedEvent
                  { b with items := [], totalItems := 0, updatedAt := now } o now] } := by
      simp only [removeOrderFromBatch, hf, hrem, Batch.isEmpty, List.isEmpty_nil,
        eq_self_iff_true, if_true]
    exact ⟨_, heq, rfl, find_delete_none hnd⟩

theorem c5_amended_witness :
    dmgBatch.status ≠ .damaged ∨
    (∃ st1, removeOrderFromBatch dmgState "o1" 7 = .ok st1 ∧
      st1.repo = dmgState.repo.delete "B1" ∧ st1.repo.findByID "B1" = none) := by
  refine Or.inr ?_
  have h := (c5_amended dmgState "o1" 7 dmgBatch dmgItem
    (by rw [nodupIds]; decide) rfl rfl).2 (by decide)
  exact h

/-! ## C7: the damage detector -/

/-- C7 counterexample: the claim says both the MQTT output and the
log-broker (Kafka) output are attempted for a triggered reading.  On the
code, `messageHandler` publishes exactly one action, and it targets the
MQTT topic only: the Kafka `Publisher` in the publisher package is never
invoked. -/
theorem c7_claim_counterexample :
    (messageHandler 10 [] (some sampleReading) "events/order-damage"
        "sensors/temperature" 9).publishes.map PublishAction.target =
      [PublishTarget.mqttTopic "events/order-damage"] := by
  rfl

/-- C7 (amended): a damage event is published iff the reading's
temperature is strictly below the configured minimum; in that case the
single publish action targets the MQTT topic with a 5-second timeout and
carries the derived severity; and the derived severity agrees with the
spec's closed severity table everywhere. -/
theorem c7_amended (minT : ℚ) (store : List SensorEvent) (ev : SensorEvent)
    (ptopic stopic : String) (now : Nat) :
    ((messageHandler minT store (some ev) ptopic stopic now).publishes ≠ [] ↔
      ev.temperature < minT) ∧
    (ev.temperature < minT →
      (messageHandler minT store (some ev) ptopic stopic now).publishes =
        [{ target := .mqttTopic ptopic,
           event := buildDamageEvent ev.id "mqtt-order-event-client"
             ev.temperature ev.humidity ev.status stopic now,
           timeoutSeconds := 5 }]) ∧
    (∀ t h, deriveSeverity t h = specSeverity t h) := by
  refine ⟨?_, ?_, ?_⟩
  · by_cases hlt : ev.temperature < minT
    · simp [messageHandler, hlt]
    · simp [messageHandler, hlt]
  · intro hlt
    simp [messageHandler, hlt]
  · intro t h
    by_cases h1 : t ≥ 40 ∨ h ≥ 90
    · simp [deriveSeverity, specSeverity, h1]
    · by_cases h2 : t ≥ 30 ∨ h ≥ 80
      · simp [deriveSeverity, specSeverity, h1, h2]
      · simp [deriveSeverity, specSeverity, h1, h2]

theorem c7_amended_witness :
    ((messageHandler 10 [] (some sampleReading) "events/order-damage"
        "sensors/temperature" 9).publishes ≠ [] ↔
      sampleReading.temperature < 10) ∧
    (sampleReading.temperature < 10 →
      (messageHandler 10 [] (some sampleReading) "events/order-damage"
          "sensors/temperature" 9).publishes =
        [{ target := .mqttTopic "events/order-damage",
           event := buildDamageEvent sampleReading.id "mqtt-order-event-client"
             sampleReading.temperature sampleReading.humidity sampleReading.status
             "sensors/temperature" 9,
           timeoutSeconds := 5 }]) ∧
    (∀ t h, deriveSeverity t h = specSeverity t h) :=
  c7_amended 10 [] sampleReading "events/order-damage" "sensors/temperature" 9

/-! ## C8: the self-healing publisher -/

/-- C8: a publish that succeeds at once reports success without any
recovery; a first failure matching the unknown-topic patterns triggers
rebuild of the writer, a 2-second wait and exactly one retry, succeeding
iff the retry succeeds; any other first failure is returned to the caller
with no rebuild, no wait and no retry. -/
theorem c8_selfhealing (first retry : PubAttempt) :
    (first = .ok → publishWithRecovery first retry =
      { result := .ok (), writerRebuilt := false, waitSeconds := 0, retried := false }) ∧
    (∀ e, first = .err e → isUnknownTopicOrPartitionError (some e) = true →
      (publishWithRecovery first retry).writerRebuilt = true ∧
      (publishWithRecovery first retry).waitSeconds = 2 ∧
      (publishWithRecovery first retry).retried = true ∧
      ((publishWithRecovery first retry).result = .ok () ↔ retry = .ok)) ∧
    (∀ e, first = .err e → isUnknownTopicOrPartitionError (some e) = false →
      publishWithRecovery first retry =
        { result := .error ("failed to write batch event to Kafka: " ++ e),
          writerRebuilt := false, waitSeconds := 0, retried := false }) := by
  refine ⟨?_, ?_, ?_⟩
  · intro h; subst h; rfl
  · intro e h hm; subst h
    cases retry with
    | ok => simp [publishWithRecovery, hm]
    | err e2 => simp [publishWithRecovery, hm]
  · intro e h hm; subst h
    simp [publishWithRecovery, hm]

theorem c8_selfhealing_witness :
    isUnknownTopicOrPartitionError (some "[3] Unknown Topic Or Partition") = true ∧
    (publishWithRecovery (.err "[3] Unknown Topic Or Partition") .ok).retried = true ∧
    (publishWithRecovery (.err "[3] Unknown Topic Or Partition") .ok).result = .ok () ∧
    isUnknownTopicOrPartitionError (some "connection refused") = false ∧
    publishWithRecovery (.err "connection refused") .ok =
      { result := .error ("failed to write batch event to Kafka: " ++ "connection refused"),
        writerRebuilt := false, waitSeconds := 0, retried := false } := by
  refine ⟨by decide, ?_, ?_, by decide, ?_⟩
  · exact ((c8_selfhealing (.err "[3] Unknown Topic Or Partition") .ok).2.1 _ rfl
      (by decide)).2.2.1
  · exact ((c8_selfhealing (.err "[3] Unknown Topic Or Partition") .ok).2.1 _ rfl
      (by decide)).2.2.2.mpr rfl
  · exact (c8_selfhealing (.err "connection refused") .ok).2.2 _ rfl (by decide)

/-! ## Order-repository and damage-handler lemmas -/

theorem orderSave_find {r : OrderRepo} {o : Order} :
    (r.save o).findByID o.id = some o := by
  induction r with
  | nil => simp [OrderRepo.save, OrderRepo.findByID, List.find?]
  | cons x rest ih =>
    by_cases hx : x.id = o.id
    · simp [OrderRepo.save, hx, OrderRepo.findByID, List.find?]
    · rw [OrderRepo.save, if_neg hx, OrderRepo.findByID,
        List.find?_cons_of_neg _ (by simp [hx])]
      rw [OrderRepo.findByID] at ih
      exact ih

/-- Postcondition of `HandleOrderDamageEvent`: it always succeeds, the
order stored under the event's orderID afterwards has the severity-derived
status and timestamp `now`; when the order did not exist it was
synthesized with the placeholder fields; and exactly one
`order.damage_processed` event carrying the updated snapshot is appended. -/
theorem handleOrderDamage_post (st : OrderServiceState) (ev : OrderDamageEvent)
    (now : Nat) :
    ∃ o1 st1, handleOrderDamageEvent st ev now = .ok st1 ∧
      o1.id = ev.orderID ∧
      o1.status = damageStatusForSeverity ev.severity ∧
      o1.updatedAt = now ∧
      (st.orders.findByID ev.orderID = none →
        o1.customerID = "unknown" ∧ o1.productID = "unknown" ∧ o1.quantity = 1 ∧
        o1.totalAmount = 0 ∧ o1.createdAt = ev.occurredAt) ∧
      (∀ o0, st.orders.findByID ev.orderID = some o0 →
        o1 = { o0 with status := damageStatusForSeverity ev.severity, updatedAt := now }) ∧
      st1.orders.findByID ev.orderID = some o1 ∧
      st1.events = st.events ++
        [{ eventType := "order.damage_processed", orderID := o1.id,
           order := o1, timestamp := now }] := by
  cases hfind : st.orders.findByID ev.orderID with
  | some o0 =>
    have ho0id : o0.id = ev.orderID := by
      have h2 : List.find? (fun o : Order => decide (o.id = ev.orderID)) st.orders = some o0 :=
        hfind
      have h3 := List.find?_some (p := fun o : Order => decide (o.id = ev.orderID)) h2
      simpa using h3
    have hupd : st.orders.update { o0 with status := damageStatusForSeverity ev.severity, updatedAt := now } = .ok (st.orders.save { o0 with status := damageStatusForSeverity ev.severity, updatedAt := now }) := by
      rw [OrderRepo.update, if_pos]
      show ((st.orders.findByID ({ o0 with status := damageStatusForSeverity ev.severity, updatedAt := now } : Order).id)).isSome = true
      have hid : ({ o0 with status := damageStatusForSeverity ev.severity, updatedAt := now } : Order).id = ev.orderID := ho0id
      rw [hid, hfind]
      rfl
    have heq : handleOrderDamageEvent st ev now = .ok { orders := st.orders.save { o0 with status := damageStatusForSeverity ev.severity, updatedAt := now }, events := st.events ++ [{ eventType := "order.damage_processed", orderID := ({ o0 with status := damageStatusForSeverity ev.severity, updatedAt := now } : Order).id, order := { o0 with status := damageStatusForSeverity ev.severity, updatedAt := now }, timestamp := now }] } := by
      simp only [handleOrderDamageEvent, hfind, hupd]
    have hfind1 : (st.orders.save { o0 with status := damageStatusForSeverity ev.severity, updatedAt := now }).findByID ev.orderID = some { o0 with status := damageStatusForSeverity ev.severity, updatedAt := now } := by
      rw [← ho0id]
      exact orderSave_find
    refine ⟨{ o0 with status := damageStatusForSeverity ev.severity, updatedAt := now },
      _, heq, ho0id, rfl, rfl, ?_, ?_, hfind1, rfl⟩
    · intro hnone; exact absurd hnone (by simp)
    · intro o0x h0x
      have : o0 = o0x := by simpa using h0x
      subst this
      rfl
  | none =>
    have hupd : (st.orders.save { id := ev.orderID, customerID := "unknown", productID := "unknown", quantity := 1, status := "created_from_damage_event", totalAmount := 0, createdAt := ev.occurredAt, updatedAt := now }).update { id := ev.orderID, customerID := "unknown", productID := "unknown", quantity := 1, status := damageStatusForSeverity ev.severity, totalAmount := 0, createdAt := ev.occurredAt, updatedAt := now } = .ok ((st.orders.save { id := ev.orderID, customerID := "unknown", productID := "unknown", quantity := 1, status := "created_from_damage_event", totalAmount := 0, createdAt := ev.occurredAt, updatedAt := now }).save { id := ev.orderID, customerID := "unknown", productID := "unknown", quantity := 1, status := damageStatusForSeverity ev.severity, totalAmount := 0, createdAt := ev.occurredAt, updatedAt := now }) := by
      rw [OrderRepo.update, if_pos]
      show ((st.orders.save { id := ev.orderID, customerID := "unknown", productID := "unknown", quantity := 1, status := "created_from_damage_event", totalAmount := 0, createdAt := ev.occurredAt, updatedAt := now }).findByID ({ id := ev.orderID, customerID := "unknown", productID := "unknown", quantity := 1, status := damageStatusForSeverity ev.severity, totalAmount := 0, createdAt := ev.occurredAt, updatedAt := now } : Order).id).isSome = true
      have h := orderSave_find (r := st.orders) (o := { id := ev.orderID, customerID := "unknown", productID := "unknown", quantity := 1, status := "created_from_damage_event", totalAmount := 0, createdAt := ev.occurredAt, updatedAt := now })
      rw [show ({ id := ev.orderID, customerID := "unknown", productID := "unknown", quantity := 1, status := "created_from_damage_event", totalAmount := 0, createdAt := ev.occurredAt, updatedAt := now } : Order).id = ev.orderID from rfl] at h
      show ((st.orders.save { id := ev.orderID, customerID := "unknown", productID := "unknown", quantity := 1, status := "created_from_damage_event", totalAmount := 0, createdAt := ev.occurredAt, updatedAt := now }).findByID ev.orderID).isSome = true
      rw [h]
      rfl
    have heq : handleOrderDamageEvent st ev now = .ok { orders := (st.orders.save { id := ev.orderID, customerID := "unknown", productID := "unknown", quantity := 1, status := "created_from_damage_event", totalAmount := 0, createdAt := ev.occurredAt, updatedAt := now }).save { id := ev.orderID, customerID := "unknown", productID := "unknown", quantity := 1, status := damageStatusForSeverity ev.severity, totalAmount := 0, createdAt := ev.occurredAt, updatedAt := now }, events := st.events ++ [{ eventType := "order.damage_processed", orderID := ev.orderID, order := { id := ev.orderID, customerID := "unknown", productID := "unknown", quantity := 1, status := damageStatusForSeverity ev.severity, totalAmount := 0, createdAt := ev.occurredAt, updatedAt := now }, timestamp := now }] } := by
      simp only [handleOrderDamageEvent, hfind, hupd]
    have hfind1 := orderSave_find (r := st.orders.save { id := ev.orderID, customerID := "unknown", productID := "unknown", quantity := 1, status := "created_from_damage_event", totalAmount := 0, createdAt := ev.occurredAt, updatedAt := now }) (o := { id := ev.orderID, customerID := "unknown", productID := "unknown", quantity := 1, status := damageStatusForSeverity ev.severity, totalAmount := 0, createdAt := ev.occurredAt, updatedAt := now })
    refine ⟨{ id := ev.orderID, customerID := "unknown", productID := "unknown", quantity := 1, status := damageStatusForSeverity ev.severity, totalAmount := 0, createdAt := ev.occurredAt, updatedAt := now },
      _, heq, rfl, rfl, rfl, ?_, ?_, hfind1, rfl⟩
    · intro _; exact ⟨rfl, rfl, rfl, rfl, rfl⟩
    · intro o0 h0; exact absurd h0 (by simp)

/-! ## C2: the order-side damage transition table -/

/-- C2: for every DamageEvent handled by the order aggregator the handler
succeeds; if no order existed one is synthesized with customerId
"unknown", productId "unknown", quantity 1, totalAmount 0 and createdAt
equal to the event's occurredAt; the stored order's status afterwards is
damage_detected_minor / damage_detected_major / cancelled_damage /
damage_detected_unknown according to the severity; and exactly one
order.damage_processed event carrying the updated snapshot is appended. -/
theorem c2_damage_transition (st : OrderServiceState) (ev : OrderDamageEvent)
    (now : Nat) :
    ∃ o1 st1, handleOrderDamageEvent st ev now = .ok st1 ∧
      o1.id = ev.orderID ∧
      (ev.severity = "minor" → o1.status = "damage_detected_minor") ∧
      (ev.severity = "major" → o1.status = "damage_detected_major") ∧
      (ev.severity = "critical" → o1.status = "cancelled_damage") ∧
      (ev.severity ≠ "minor" → ev.severity ≠ "major" → ev.severity ≠ "critical" →
        o1.status = "damage_detected_unknown") ∧
      (st.orders.findByID ev.orderID = none →
        o1.customerID = "unknown" ∧ o1.productID = "unknown" ∧ o1.quantity = 1 ∧
        o1.totalAmount = 0 ∧ o1.createdAt = ev.occurredAt) ∧
      st1.orders.findByID ev.orderID = some o1 ∧
      st1.events = st.events ++
        [{ eventType := "order.damage_processed", orderID := o1.id,
           order := o1, timestamp := now }] := by
  obtain ⟨o1, st1, heq, hid, hstat, hupdat, hnone, hsome, hfind, hev⟩ :=
    handleOrderDamage_post st ev now
  refine ⟨o1, st1, heq, hid, ?_, ?_, ?_, ?_, hnone, hfind, hev⟩
  · intro h
    rw [hstat, damageStatusForSeverity, if_pos h]
  · intro h
    rw [hstat, damageStatusForSeverity, if_neg (by rw [h]; decide), if_pos h]
  · intro h
    rw [hstat, damageStatusForSeverity, if_neg (by rw [h]; decide),
      if_neg (by rw [h]; decide), if_pos h]
  · intro h1 h2 h3
    rw [hstat, damageStatusForSeverity, if_neg h1, if_neg h2, if_neg h3]

theorem c2_damage_transition_witness :
    ∃ o1 st1, handleOrderDamageEvent emptyOrderState sampleDamageEvent 9 = .ok st1 ∧
      o1.id = sampleDamageEvent.orderID ∧
      (sampleDamageEvent.severity = "minor" → o1.status = "damage_detected_minor") ∧
      (sampleDamageEvent.severity = "major" → o1.status = "damage_detected_major") ∧
      (sampleDamageEvent.severity = "critical" → o1.status = "cancelled_damage") ∧
      (sampleDamageEvent.severity ≠ "minor" → sampleDamageEvent.severity ≠ "major" →
        sampleDamageEvent.severity ≠ "critical" →
        o1.status = "damage_detected_unknown") ∧
      (emptyOrderState.orders.findByID sampleDamageEvent.orderID = none →
        o1.customerID = "unknown" ∧ o1.productID = "unknown" ∧ o1.quantity = 1 ∧
        o1.totalAmount = 0 ∧ o1.createdAt = sampleDamageEvent.occurredAt) ∧
      st1.orders.findByID sampleDamageEvent.orderID = some o1 ∧
      st1.events = emptyOrderState.events ++
        [{ eventType := "order.damage_processed", orderID := o1.id,
           order := o1, timestamp := 9 }] :=
  c2_damage_transition emptyOrderState sampleDamageEvent 9

/-! ## C6: consumer ack/nack behaviour -/

/-- C6 counterexample: the claim says a malformed payload (both decode
attempts fail) is negatively acked without requeue as a poison message.
On the code, `translateMessage` falls back to a synthetic order.message
event, the always-succeeding order handler accepts it, and the delivery
is positively acked. -/
theorem c6_claim_counterexample :
    (processDelivery emptyOrderState { asWrapper := none, asOrderEvent := none }
      (fun _ => none) 0).1 = AckAction.ack := by
  rfl

/-- C6 (amended): a delivery is nacked without requeue exactly when it
decodes as an MQTT wrapper whose topic is events/order-damage but whose
nested damage payload fails to parse; a wrapper with that topic and a
parsable payload is handled (the damage handler always succeeds) and
acked; every other delivery — no wrapper, or a wrapper with a different
topic, including completely undecodable bodies — takes the order path,
whose handler only logs, and is acked. -/
theorem c6_amended (st : OrderServiceState) (body : DeliveryBody)
    (parseDamage : String → Option OrderDamageEvent) (now : Nat) :
    (∀ w, body.asWrapper = some w → w.mqttTopic = "events/order-damage" →
      parseDamage w.payload = none →
      processDelivery st body parseDamage now = (.nackNoRequeue, st)) ∧
    (∀ w d, body.asWrapper = some w → w.mqttTopic = "events/order-damage" →
      parseDamage w.payload = some d →
      ∃ st1, handleOrderDamageEvent st d now = .ok st1 ∧
        processDelivery st body parseDamage now = (.ack, st1)) ∧
    (body.asWrapper = none →
      (processDelivery st body parseDamage now).1 = .ack) ∧
    (∀ w, body.asWrapper = some w → w.mqttTopic ≠ "events/order-damage" →
      (processDelivery st body parseDamage now).1 = .ack) := by
  refine ⟨?_, ?_, ?_, ?_⟩
  · intro w hw ht hp
    simp only [processDelivery, translateMessage, hw, ht, hp, if_pos]
  · intro w d hw ht hp
    obtain ⟨o1, st1, heq, _⟩ := handleOrderDamage_post st d now
    refine ⟨st1, heq, ?_⟩
    simp only [processDelivery, translateMessage, hw, ht, hp, if_pos, heq]
  · intro h
    cases he : body.asOrderEvent <;>
      simp [processDelivery, translateMessage, h, he, handleOrderMgmtEvent]
  · intro w hw ht
    cases he : body.asOrderEvent <;>
      simp [processDelivery, translateMessage, hw, he, ht, handleOrderMgmtEvent]

theorem c6_amended_witness :
    processDelivery emptyOrderState
      { asWrapper := some { mqttTopic := "events/order-damage", payload := "p", timestamp := 0 },
        asOrderEvent := none } (fun _ => none) 0 =
      (AckAction.nackNoRequeue, emptyOrderState) :=
  (c6_amended emptyOrderState
    { asWrapper := some { mqttTopic := "events/order-damage", payload := "p", timestamp := 0 },
      asOrderEvent := none } (fun _ => none) 0).1 _ rfl rfl rfl

/-! ## C9: idempotence of AddOrderToBatch -/

theorem save_congr {r : Repo} {a b : Batch} (h : batchEqUpTo a b) :
    repoEqUpTo (r.save a) (r.save b) := by
  induction r with
  | nil => exact List.Forall₂.cons h List.Forall₂.nil
  | cons x rest ih =>
    by_cases hx : x.id = a.id
    · have hx2 : x.id = b.id := hx.trans h.1
      simp only [Repo.save, if_pos hx, if_pos hx2]
      exact List.Forall₂.cons h (forallTwoRefl _ batchEqUpTo_refl rest)
    · have hx2 : ¬ x.id = b.id := fun hc => hx (hc.trans h.1.symm)
      simp only [Repo.save, if_neg hx, if_neg hx2]
      exact List.Forall₂.cons (batchEqUpTo_refl x) ih

/-- C9: calling AddOrderToBatch twice in immediate succession with
identical arguments leaves the repository in a state equal to the state
after one call up to the `updatedAt` field of the batch and the `addedAt`
field of the item: the second call updates the existing item in place,
adds no duplicate, and keeps TotalItems. -/
theorem c9_idempotent (st : ServiceState) (o p : String) (q : Int) (s : String)
    (now now2 : Nat) (hnd : nodupIds st.repo) :
    ∃ st1 b1 st2 b2,
      addOrderToBatch st o p q s now = .ok (st1, b1) ∧
      addOrderToBatch st1 o p q s now2 = .ok (st2, b2) ∧
      batchEqUpTo b2 b1 ∧
      repoEqUpTo st2.repo st1.repo := by
  obtain ⟨st1, b1, heq1, hrepo1, hprod1, hstat1, hitem1, hord1, hidsome, hidnone,
    b0base, hb0base, haddbase⟩ := addOrderToBatch_post st o p q s now
  obtain ⟨b2, hadd2, hbeq⟩ := addItem_again (v := now2) haddbase
  obtain ⟨_, _, _, _, ⟨j2, hj2, hj2o, hj2s, hj2q⟩, _⟩ := addItem_post hadd2
  have hQb1 : (fun b : Batch =>
      decide (b.productID = p ∧ b.status = BatchStatus.pending)) b1 = true := by
    simp [hprod1, hstat1]
  have hfp1 : st1.repo.findPendingBatchForProduct p = some b1 := by
    cases hfp : st.repo.findPendingBatchForProduct p with
    | some b0 =>
      have hid1 : b1.id = b0.id := hidsome b0 hfp
      have hfp0 : st.repo.find? (fun b : Batch =>
          decide (b.productID = p ∧ b.status = BatchStatus.pending)) = some b0 := hfp
      have h := find_save_of_hit hnd hfp0 hid1 hQb1
      rw [hrepo1]
      exact h
    | none =>
      have hfp0 : st.repo.find? (fun b : Batch =>
          decide (b.productID = p ∧ b.status = BatchStatus.pending)) = none := hfp
      have h := find_save_of_none hfp0 hQb1
      rw [hrepo1]
      exact h
  have heq2 : addOrderToBatch st1 o p q s now2 =
      .ok ({ repo := st1.repo.save b2,
             events := st1.events ++ [newBatchItemAddedEvent b2 o j2 now2] }, b2) := by
    simp only [addOrderToBatch, hfp1, Option.getD_some, Option.isNone_some, hadd2, hj2,
      Bool.false_eq_true, if_false]
  refine ⟨st1, b1, _, b2, heq1, heq2, hbeq, ?_⟩
  show repoEqUpTo (st1.repo.save b2) st1.repo
  rw [hrepo1, save_save hbeq.1]
  exact save_congr hbeq

theorem c9_idempotent_witness :
    ∃ st1 b1 st2 b2,
      addOrderToBatch c9State "o1" "p1" 1 "allocated" 0 = .ok (st1, b1) ∧
      addOrderToBatch st1 "o1" "p1" 1 "allocated" 1 = .ok (st2, b2) ∧
      batchEqUpTo b2 b1 ∧
      repoEqUpTo st2.repo st1.repo :=
  c9_idempotent c9State "o1" "p1" 1 "allocated" 0 1
    (by rw [nodupIds]; decide)

/-! ## C1: batch-side damage processing -/

theorem handleWarehouse_damage {st : ServiceState} {ev : OrderEvent} {now : Nat}
    (htype : ev.eventType = "order.damage_processed") :
    handleWarehouseOrderEvent st ev now = processDamage st ev now := by
  simp [handleWarehouseOrderEvent, htype, isWarehouseRelevant, getWarehouseAction]

theorem handleWarehouse_returned {st : ServiceState} {ev : OrderEvent} {now : Nat}
    (htype : ev.eventType = "order.returned") :
    handleWarehouseOrderEvent st ev now = processReturn st ev now := by
  simp [handleWarehouseOrderEvent, htype, isWarehouseRelevant, getWarehouseAction]

/-- C1 counterexample: the claim says that for a minor-damage event whose
order is in no batch, a new batch containing the order is created.  On the
code the fallback goes through `AddOrderToBatch`, which reuses the
product's existing pending batch: with pending batch B0 for product p1
already stored and order o2 in no batch, the repository still holds one
single batch afterwards and o2 ended up inside B0. -/
theorem c1_claim_counterexample :
    (handleResult c1State c1Event 5).map List.length = some 1 ∧
    ((handleResult c1State c1Event 5).bind
      (fun r => (r.findByOrderID "o2").map Batch.id)) = some "B0" := by
  exact ⟨rfl, rfl⟩

/-- C1 (amended): for an order.damage_processed event, the effect keys on
the embedded order's status.  For damage_detected_minor: when the order
already sits in a batch, its item status is set to damage_minor in that
batch; when it is in no batch, the order is added through the normal
batch-selection rule, which reuses the product's open pending batch and
only creates a fresh batch (with the generated id) when no pending batch
for the product exists.  damage_detected_major behaves analogously with
item status damage_major, and afterwards the batch now containing the
order is marked damaged; damage_processed behaves analogously with item
status damage_processed and no marking.  For any status other than these
three the handler performs no batch mutation and returns success. -/
theorem c1_amended (st : ServiceState) (ev : OrderEvent) (now : Nat)
    (htype : ev.eventType = "order.damage_processed") :
    (∀ b, st.repo.findByOrderID ev.orderID = some b →
      ev.order.status = "damage_detected_minor" →
      ∃ st1 l, handleWarehouseOrderEvent st ev now = .ok st1 ∧
        updItemStatus ev.orderID "damage_minor" now b.items = some l ∧
        st1.repo = st.repo.save { b with items := l, updatedAt := now }) ∧
    (st.repo.findByOrderID ev.orderID = none →
      ev.order.status = "damage_detected_minor" →
      ∃ st1 b1, handleWarehouseOrderEvent st ev now = .ok st1 ∧
        st1.repo = st.repo.save b1 ∧ b1.status = .pending ∧
        b1.productID = ev.order.productID ∧
        b1.hasOrder ev.orderID = true ∧
        (∀ b0, st.repo.findPendingBatchForProduct ev.order.productID = some b0 →
          b1.id = b0.id) ∧
        (st.repo.findPendingBatchForProduct ev.order.productID = none →
          b1.id = generateBatchID ev.order.productID now)) ∧
    (∀ b, st.repo.findByOrderID ev.orderID = some b →
      ev.order.status = "damage_detected_major" → nodupIds st.repo →
      ∃ st2 l, handleWarehouseOrderEvent st ev now = .ok st2 ∧
        updItemStatus ev.orderID "damage_major" now b.items = some l ∧
        st2.repo = (st.repo.save { b with items := l, updatedAt := now }).save
          { b with items := l, status := .damaged, updatedAt := now }) ∧
    (st.repo.findByOrderID ev.orderID = none →
      ev.order.status = "damage_detected_major" →
      ∃ st2 b1, handleWarehouseOrderEvent st ev now = .ok st2 ∧
        b1.status = .pending ∧ b1.productID = ev.order.productID ∧
        b1.hasOrder ev.orderID = true ∧
        (∀ b0, st.repo.findPendingBatchForProduct ev.order.productID = some b0 →
          b1.id = b0.id) ∧
        (st.repo.findPendingBatchForProduct ev.order.productID = none →
          b1.id = generateBatchID ev.order.productID now) ∧
        st2.repo = (st.repo.save b1).save
          { b1 with status := .damaged, updatedAt := now }) ∧
    (∀ b, st.repo.findByOrderID ev.orderID = some b →
      ev.order.status = "damage_processed" →
      ∃ st1 l, handleWarehouseOrderEvent st ev now = .ok st1 ∧
        updItemStatus ev.orderID "damage_processed" now b.items = some l ∧
        st1.repo = st.repo.save { b with items := l, updatedAt := now }) ∧
    (st.repo.findByOrderID ev.orderID = none →
      ev.order.status = "damage_processed" →
      ∃ st1 b1, handleWarehouseOrderEvent st ev now = .ok st1 ∧
        st1.repo = st.repo.save b1 ∧ b1.status = .pending ∧
        b1.productID = ev.order.productID ∧
        b1.hasOrder ev.orderID = true ∧
        (∀ b0, st.repo.findPendingBatchForProduct ev.order.productID = some b0 →
          b1.id = b0.id) ∧
        (st.repo.findPendingBatchForProduct ev.order.productID = none →
          b1.id = generateBatchID ev.order.productID now)) ∧
    (ev.order.status ≠ "damage_detected_minor" →
      ev.order.status ≠ "damage_detected_major" →
      ev.order.status ≠ "damage_processed" →
      handleWarehouseOrderEvent st ev now = .ok st) := by
  refine ⟨?_, ?_, ?_, ?_, ?_, ?_, ?_⟩
  · intro b hf hmin
    obtain ⟨st1, l, heq, hl, hrepo⟩ :=
      updateOrderStatus_ok (s := "damage_minor") (t := now) hf
    refine ⟨st1, l, ?_, hl, hrepo⟩
    rw [handleWarehouse_damage htype, processDamage, if_pos hmin, heq]
  · intro hf hmin
    have herr := updateOrderStatus_err (s := "damage_minor") (t := now) hf
    obtain ⟨st1, b1, heq, hrepo, hprod, hstat, ⟨j, hj, hjo, hjs, hjq⟩, hord,
      hidsome, hidnone, _⟩ :=
      addOrderToBatch_post st ev.orderID ev.order.productID ev.order.quantity
        "damage_minor" now
    refine ⟨st1, b1, ?_, hrepo, hstat, hprod, ?_, hidsome, hidnone⟩
    · rw [handleWarehouse_damage htype, processDamage, if_pos hmin, herr, heq]
    · rw [Batch.hasOrder, hj]
      rfl
  · intro b hf hmaj hnd
    have hne1 : ¬ ev.order.status = "damage_detected_minor" := by
      rw [hmaj]; decide
    obtain ⟨st1, l, heq1, hl, hrepo1⟩ :=
      updateOrderStatus_ok (s := "damage_major") (t := now) hf
    have hQb : ({ b with items := l, updatedAt := now } : Batch).hasOrder
        ev.orderID = true := by
      obtain ⟨j, hj, _, _⟩ := updItemStatus_getItem hl
      rw [Batch.hasOrder, Batch.getItemByOrderID]
      show (List.find? (itemPred ev.orderID) l).isSome = true
      rw [hj]
      rfl
    have hfind1 : st1.repo.findByOrderID ev.orderID =
        some { b with items := l, updatedAt := now } := by
      rw [hrepo1]
      have hf0 : st.repo.find? (fun x => Batch.hasOrder x ev.orderID) = some b := hf
      exact find_save_of_hit hnd hf0 rfl hQb
    have hfB : st1.repo.findByID
        ({ b with items := l, updatedAt := now } : Batch).id =
        some { b with items := l, updatedAt := now } := by
      rw [hrepo1]
      exact findByID_save _ _
    have heq3 := markBatchAsDamaged_ok (t := now) hfB
    have hrun : handleWarehouseOrderEvent st ev now = .ok
        { repo := st1.repo.save
            { b with items := l, status := .damaged, updatedAt := now },
          events := st1.events ++ [newBatchDamagedEvent
            { b with items := l, status := .damaged, updatedAt := now } now] } := by
      rw [handleWarehouse_damage htype, processDamage, if_neg hne1, if_pos hmaj]
      simp only [heq1, hfind1, heq3]
    refine ⟨_, l, hrun, hl, ?_⟩
    rw [hrepo1]
  · intro hf hmaj
    have hne1 : ¬ ev.order.status = "damage_detected_minor" := by
      rw [hmaj]; decide
    have herr := updateOrderStatus_err (s := "damage_major") (t := now) hf
    obtain ⟨st1, b1, heq, hrepo, hprod, hstat, ⟨j, hj, hjo, hjs, hjq⟩, hord,
      hidsome, hidnone, _⟩ :=
      addOrderToBatch_post st ev.orderID ev.order.productID ev.order.quantity
        "damage_major" now
    have hfB : st1.repo.findByID b1.id = some b1 := by
      rw [hrepo]
      exact findByID_save _ _
    have heq3 := markBatchAsDamaged_ok (t := now) hfB
    have hrun : handleWarehouseOrderEvent st ev now = .ok
        { repo := st1.repo.save { b1 with status := .damaged, updatedAt := now },
          events := st1.events ++ [newBatchDamagedEvent
            { b1 with status := .damaged, updatedAt := now } now] } := by
      rw [handleWarehouse_damage htype, processDamage, if_neg hne1, if_pos hmaj,
        herr, heq]
      simp only [heq3]
    refine ⟨_, b1, hrun, hstat, hprod, ?_, hidsome, hidnone, ?_⟩
    · rw [Batch.hasOrder, hj]
      rfl
    · rw [hrepo]
  · intro b hf hproc
    have hne1 : ¬ ev.order.status = "damage_detected_minor" := by
      rw [hproc]; decide
    have hne2 : ¬ ev.order.status = "damage_detected_major" := by
      rw [hproc]; decide
    obtain ⟨st1, l, heq, hl, hrepo⟩ :=
      updateOrderStatus_ok (s := "damage_processed") (t := now) hf
    refine ⟨st1, l, ?_, hl, hrepo⟩
    rw [handleWarehouse_damage htype, processDamage, if_neg hne1, if_neg hne2,
      if_pos hproc, heq]
  · intro hf hproc
    have hne1 : ¬ ev.order.status = "damage_detected_minor" := by
      rw [hproc]; decide
    have hne2 : ¬ ev.order.status = "damage_detected_major" := by
      rw [hproc]; decide
    have herr := updateOrderStatus_err (s := "damage_processed") (t := now) hf
    obtain ⟨st1, b1, heq, hrepo, hprod, hstat, ⟨j, hj, hjo, hjs, hjq⟩, hord,
      hidsome, hidnone, _⟩ :=
      addOrderToBatch_post st ev.orderID ev.order.productID ev.order.quantity
        "damage_processed" now
    refine ⟨st1, b1, ?_, hrepo, hstat, hprod, ?_, hidsome, hidnone⟩
    · rw [handleWarehouse_damage htype, processDamage, if_neg hne1, if_neg hne2,
        if_pos hproc, herr, heq]
    · rw [Batch.hasOrder, hj]
      rfl
  · intro h1 h2 h3
    rw [handleWarehouse_damage htype, processDamage, if_neg h1, if_neg h2, if_neg h3]

theorem c1_amended_witness :
    (∀ b, c1State.repo.findByOrderID c1Event.orderID = some b →
      c1Event.order.status = "damage_detected_minor" →
      ∃ st1 l, handleWarehouseOrderEvent c1State c1Event 5 = .ok st1 ∧
        updItemStatus c1Event.orderID "damage_minor" 5 b.items = some l ∧
        st1.repo = c1State.repo.save { b with items := l, updatedAt := 5 }) ∧
    (c1State.repo.findByOrderID c1Event.orderID = none →
      c1Event.order.status = "damage_detected_minor" →
      ∃ st1 b1, handleWarehouseOrderEvent c1State c1Event 5 = .ok st1 ∧
        st1.repo = c1State.repo.save b1 ∧ b1.status = .pending ∧
        b1.productID = c1Event.order.productID ∧
        b1.hasOrder c1Event.orderID = true ∧
        (∀ b0, c1State.repo.findPendingBatchForProduct c1Event.order.productID = some b0 →
          b1.id = b0.id) ∧
        (c1State.repo.findPendingBatchForProduct c1Event.order.productID = none →
          b1.id = generateBatchID c1Event.order.productID 5)) ∧
    (∀ b, c1State.repo.findByOrderID c1Event.orderID = some b →
      c1Event.order.status = "damage_detected_major" → nodupIds c1State.repo →
      ∃ st2 l, handleWarehouseOrderEvent c1State c1Event 5 = .ok st2 ∧
        updItemStatus c1Event.orderID "damage_major" 5 b.items = some l ∧
        st2.repo = (c1State.repo.save { b with items := l, updatedAt := 5 }).save
          { b with items := l, status := .damaged, updatedAt := 5 }) ∧
    (c1State.repo.findByOrderID c1Event.orderID = none →
      c1Event.order.status = "damage_detected_major" →
      ∃ st2 b1, handleWarehouseOrderEvent c1State c1Event 5 = .ok st2 ∧
        b1.status = .pending ∧ b1.productID = c1Event.order.productID ∧
        b1.hasOrder c1Event.orderID = true ∧
        (∀ b0, c1State.repo.findPendingBatchForProduct c1Event.order.productID = some b0 →
          b1.id = b0.id) ∧
        (c1State.repo.findPendingBatchForProduct c1Event.order.productID = none →
          b1.id = generateBatchID c1Event.order.productID 5) ∧
        st2.repo = (c1State.repo.save b1).save
          { b1 with status := .damaged, updatedAt := 5 }) ∧
    (∀ b, c1State.repo.findByOrderID c1Event.orderID = some b →
      c1Event.order.status = "damage_processed" →
      ∃ st1 l, handleWarehouseOrderEvent c1State c1Event 5 = .ok st1 ∧
        updItemStatus c1Event.orderID "damage_processed" 5 b.items = some l ∧
        st1.repo = c1State.repo.save { b with items := l, updatedAt := 5 }) ∧
    (c1State.repo.findByOrderID c1Event.orderID = none →
      c1Event.order.status = "damage_processed" →
      ∃ st1 b1, handleWarehouseOrderEvent c1State c1Event 5 = .ok st1 ∧
        st1.repo = c1State.repo.save b1 ∧ b1.status = .pending ∧
        b1.productID = c1Event.order.productID ∧
        b1.hasOrder c1Event.orderID = true ∧
        (∀ b0, c1State.repo.findPendingBatchForProduct c1Event.order.productID = some b0 →
          b1.id = b0.id) ∧
        (c1State.repo.findPendingBatchForProduct c1Event.order.productID = none →
          b1.id = generateBatchID c1Event.order.productID 5)) ∧
    (c1Event.order.status ≠ "damage_detected_minor" →
      c1Event.order.status ≠ "damage_detected_major" →
      c1Event.order.status ≠ "damage_processed" →
      handleWarehouseOrderEvent c1State c1Event 5 = .ok c1State) :=
  c1_amended c1State c1Event 5 (by decide)

/-! ## C10: the order.returned split -/

/-- C10: processing an order.returned event updates the original order's
item to status returned inside whatever batch contains it, while the
appended item with id orderId-return goes through the normal
batch-selection rule; when the original batch is not pending (and its id
is not the freshly generated one), the return item lands in a different
batch than the original order. -/
theorem c10_return_split (st : ServiceState) (ev : OrderEvent) (now : Nat)
    (htype : ev.eventType = "order.returned") (b : Batch) (hnd : nodupIds st.repo)
    (hf : st.repo.findByOrderID ev.orderID = some b)
    (hnp : b.status ≠ .pending)
    (hfresh : b.id ≠ generateBatchID ev.order.productID now) :
    ∃ st2 b1 l, handleWarehouseOrderEvent st ev now = .ok st2 ∧
      updItemStatus ev.orderID "returned" now b.items = some l ∧
      b1.hasOrder (ev.orderID ++ "-return") = true ∧
      b1.status = .pending ∧ b1.id ≠ b.id ∧
      st2.repo = (st.repo.save { b with items := l, updatedAt := now }).save b1 ∧
      st2.repo.findByID b.id = some { b with items := l, updatedAt := now } := by
  obtain ⟨st1, l, heq1, hl, hrepo1⟩ :=
    updateOrderStatus_ok (s := "returned") (t := now) hf
  obtain ⟨st2, b1, heq2, hrepo2, hprod2, hstat2, ⟨j, hj, hjo, hjs, hjq⟩, hord2,
    hidsome2, hidnone2, _⟩ :=
    addOrderToBatch_post st1 (ev.orderID ++ "-return") ev.order.productID
      ev.order.quantity "returned" now
  have hbid : b1.id ≠ b.id := by
    cases hfp : st1.repo.findPendingBatchForProduct ev.order.productID with
    | some b0 =>
      have hid := hidsome2 b0 hfp
      have hpend := List.find?_some hfp
      simp only [decide_eq_true_eq] at hpend
      have hmem : b0 ∈ st1.repo := List.mem_of_find?_eq_some hfp
      rw [hid]
      intro hcon
      have hnd1 : nodupIds st1.repo := by
        rw [hrepo1]; exact nodup_save _ hnd
      have hmemb : ({ b with items := l, updatedAt := now } : Batch) ∈ st1.repo := by
        rw [hrepo1]; exact self_mem_save _ _
      have hb0b : b0 = { b with items := l, updatedAt := now } :=
        mem_id_unique hnd1 hmem hmemb hcon
      rw [hb0b] at hpend
      exact hnp hpend.2
    | none =>
      have hid := hidnone2 hfp
      rw [hid]
      exact fun hcon => hfresh hcon.symm
  have heqAll : handleWarehouseOrderEvent st ev now = .ok st2 := by
    rw [handleWarehouse_returned htype]
    simp only [processReturn, heq1, heq2]
  have hfind : st2.repo.findByID b.id = some { b with items := l, updatedAt := now } := by
    rw [hrepo2, hrepo1]
    have hf0 : (st.repo.save { b with items := l, updatedAt := now }).find?
        (fun x => decide (x.id = b.id)) =
        some { b with items := l, updatedAt := now } :=
      findByID_save st.repo { b with items := l, updatedAt := now }
    refine find_save_keep hf0 (fun hcon => hbid hcon.symm) ?_
    intro x hx hxid hQ
    exfalso
    have : b1.id = b.id := by simpa using hQ
    exact hbid this
  refine ⟨st2, b1, l, heqAll, hl, ?_, hstat2, hbid,
    hrepo2.trans (by rw [hrepo1]), hfind⟩
  rw [Batch.hasOrder, hj]
  rfl

theorem c10_return_split_witness :
    ∃ st2 b1 l, handleWarehouseOrderEvent c10State c10Event 7 = .ok st2 ∧
      updItemStatus c10Event.orderID "returned" 7 procBatch.items = some l ∧
      b1.hasOrder (c10Event.orderID ++ "-return") = true ∧
      b1.status = .pending ∧ b1.id ≠ procBatch.id ∧
      st2.repo = (c10State.repo.save { procBatch with items := l, updatedAt := 7 }).save b1 ∧
      st2.repo.findByID procBatch.id = some { procBatch with items := l, updatedAt := 7 } :=
  c10_return_split c10State c10Event 7 (by decide) procBatch
    (by rw [nodupIds]; decide) rfl (by decide) (by decide)

/-! ## C3: counting pending batches and batch well-formedness -/

theorem pendingCount_save_notP {r : Repo} {b : Batch} {q : String}
    (hq : pendPred q b = false) :
    pendingCount (Repo.save r b) q ≤ pendingCount r q := by
  induction r with
  | nil => simp [Repo.save, pendingCount, List.filter, hq]
  | cons x rest ih =>
    by_cases hx : x.id = b.id
    · simp only [Repo.save, if_pos hx, pendingCount, List.filter_cons, hq]
      cases hqx : pendPred q x with
      | true => simp only [if_pos rfl, Bool.false_eq_true, if_false, List.length_cons]
                exact Nat.le_succ _
      | false => simp only [Bool.false_eq_true, if_false]
                 exact le_rfl
    · simp only [Repo.save, if_neg hx, pendingCount, List.filter_cons]
      cases hqx : pendPred q x with
      | true =>
        simp only [if_pos rfl, List.length_cons]
        exact Nat.succ_le_succ ih
      | false =>
        simp only [Bool.false_eq_true, if_false]
        exact ih

theorem pendingCount_save_congr {r : Repo} {b c : Batch} {q : String}
    (hnd : nodupIds r) (hc : c ∈ r) (hid : c.id = b.id)
    (hpred : pendPred q b = pendPred q c) :
    pendingCount (Repo.save r b) q = pendingCount r q := by
  induction r with
  | nil => simp at hc
  | cons x rest ih =>
    rw [nodupIds, List.map_cons, List.nodup_cons] at hnd
    by_cases hx : x.id = b.id
    · have hcx : c = x := by
        cases List.mem_cons.mp hc with
        | inl h => exact h
        | inr h =>
          exfalso
          exact hnd.1 ((hid.trans hx.symm) ▸ List.mem_map_of_mem Batch.id h)
      simp only [Repo.save, if_pos hx, pendingCount, List.filter_cons, hpred, hcx]
      cases hqx : pendPred q x <;> simp [hqx]
    · have hcx : c ≠ x := fun hcon => hx ((hcon ▸ hid : x.id = b.id))
      have hcrest : c ∈ rest := by
        cases List.mem_cons.mp hc with
        | inl h => exact absurd h hcx
        | inr h => exact h
      simp only [Repo.save, if_neg hx, pendingCount, List.filter_cons]
      cases hqx : pendPred q x with
      | true =>
        simp only [if_pos rfl, List.length_cons]
        exact congrArg Nat.succ (ih hnd.2 hcrest)
      | false =>
        simp only [Bool.false_eq_true, if_false]
        exact ih hnd.2 hcrest

theorem pendingCount_zero_of_none {r : Repo} {p : String}
    (h : r.find? (pendPred p) = none) : pendingCount r p = 0 := by
  rw [pendingCount, List.length_eq_zero]
  rw [List.find?_eq_none] at h
  exact List.filter_eq_nil.mpr (fun x hx => by simpa using h x hx)

theorem pendingCount_save_le_one {r : Repo} {b : Batch} {q : String}
    (h0 : pendingCount r q = 0) :
    pendingCount (Repo.save r b) q ≤ 1 := by
  induction r with
  | nil =>
    cases hqb : pendPred q b <;>
      simp [Repo.save, pendingCount, List.filter, hqb]
  | cons x rest ih =>
    rw [pendingCount, List.filter_cons] at h0
    have hqx : pendPred q x = false := by
      cases hqx : pendPred q x with
      | true => rw [hqx] at h0; simp at h0
      | false => rfl
    rw [hqx] at h0
    simp only [Bool.false_eq_true, if_false] at h0
    by_cases hx : x.id = b.id
    · cases hqb : pendPred q b <;>
        simp [Repo.save, if_pos hx, pendingCount, List.filter_cons, hqb, h0]
    · simp only [Repo.save, if_neg hx, pendingCount, List.filter_cons, hqx,
        Bool.false_eq_true, if_false]
      exact ih h0

theorem pendingCount_delete_le {r : Repo} {id q : String} :
    pendingCount (Repo.delete r id) q ≤ pendingCount r q := by
  induction r with
  | nil => simp [Repo.delete]
  | cons x rest ih =>
    by_cases hx : x.id = id
    · simp only [Repo.delete, if_pos hx, pendingCount, List.filter_cons]
      cases hqx : pendPred q x with
      | true => simp only [if_pos rfl, List.length_cons]; exact Nat.le_succ_of_le le_rfl
      | false => simp only [Bool.false_eq_true, if_false]; exact le_rfl
    · simp only [Repo.delete, if_neg hx, pendingCount, List.filter_cons]
      cases hqx : pendPred q x with
      | true => simp only [if_pos rfl, List.length_cons]; exact Nat.succ_le_succ ih
      | false => simp only [Bool.false_eq_true, if_false]; exact ih

theorem shape_productIDs {l items : List BatchItem}
    (h : List.Forall₂ (fun ni oi => ni.orderID = oi.orderID ∧
      ni.productID = oi.productID ∧ ni.quantity = oi.quantity ∧
      ni.addedAt = oi.addedAt) l items) :
    l.map BatchItem.productID = items.map BatchItem.productID ∧
    l.length = items.length := by
  induction h with
  | nil => exact ⟨rfl, rfl⟩
  | cons hab hrest ih =>
    refine ⟨?_, ?_⟩
    · simp only [List.map_cons, hab.2.1, ih.1]
    · simp only [List.length_cons, ih.2]

theorem updItems_productIDs {orderID : String} {q : Int} {s : String} {t : Nat} :
    ∀ {items l : List BatchItem}, updItems orderID q s t items = some l →
      l.map BatchItem.productID = items.map BatchItem.productID := by
  intro items
  induction items with
  | nil => intro l h; simp [updItems] at h
  | cons i rest ih =>
    intro l h
    by_cases hi : i.orderID = orderID
    · simp only [updItems, if_pos hi, Option.some.injEq] at h
      subst h; simp
    · simp only [updItems, if_neg hi, Option.map_eq_some'] at h
      obtain ⟨l0, hl0, rfl⟩ := h
      simp [ih hl0]

theorem wf_items_of_map {b : Batch} {l : List BatchItem} (hwf : BatchWf b)
    (hmap : l.map BatchItem.productID = b.items.map BatchItem.productID) :
    ∀ i ∈ l, i.productID = b.productID := by
  intro i hi
  have hmem : i.productID ∈ l.map BatchItem.productID :=
    List.mem_map_of_mem _ hi
  rw [hmap] at hmem
  obtain ⟨oi, hoi, heq⟩ := List.mem_map.mp hmem
  rw [← heq]
  exact hwf.1 oi hoi

theorem newBatch_wf (id p : String) (now : Nat) : BatchWf (newBatch id p now) := by
  refine ⟨?_, rfl⟩
  intro i hi
  simp [newBatch] at hi

theorem addItem_wf {b b2 : Batch} {o p : String} {q : Int} {s : String} {t : Nat}
    (hwf : BatchWf b) (hok : b.addItem o p q s t = .ok b2) : BatchWf b2 := by
  rw [Batch.addItem] at hok
  by_cases hp : b.productID ≠ p
  · rw [if_pos hp] at hok; exact absurd hok (by simp)
  rw [if_neg hp] at hok
  by_cases hguard : b.status = .completed ∨ b.status = .cancelled
  · rw [if_pos hguard] at hok; exact absurd hok (by simp)
  rw [if_neg hguard] at hok
  push_neg at hp
  cases hupd : updItems o q s t b.items with
  | some l =>
    rw [hupd] at hok
    simp only [Except.ok.injEq] at hok
    subst hok
    have hmap := updItems_productIDs hupd
    refine ⟨wf_items_of_map (b := b) hwf hmap, ?_⟩
    show b.totalItems = l.length
    have hlen : l.length = b.items.length := by
      have := congrArg List.length hmap
      simpa using this
    rw [hlen]
    exact hwf.2
  | none =>
    rw [hupd] at hok
    simp only [Except.ok.injEq] at hok
    subst hok
    constructor
    · intro i hi
      show i.productID = b.productID
      rcases List.mem_append.mp hi with hold | hnew
      · exact hwf.1 i hold
      · simp only [List.mem_singleton] at hnew
        rw [hnew, hp]
    · rfl

theorem removeItem_wf {b b2 : Batch} {o : String} {t : Nat}
    (hwf : BatchWf b) (hok : b.removeItem o t = .ok b2) : BatchWf b2 := by
  rw [Batch.removeItem] at hok
  by_cases hc : b.status = .completed
  · rw [if_pos hc] at hok; exact absurd hok (by simp)
  rw [if_neg hc] at hok
  cases hfi : removeFirstItem o b.items with
  | some l =>
    rw [hfi] at hok
    simp only [Except.ok.injEq] at hok
    subst hok
    refine ⟨?_, rfl⟩
    intro i hi
    exact hwf.1 i ((removeFirstItem_sublist hfi).mem hi)
  | none =>
    rw [hfi] at hok
    exact absurd hok (by simp)

theorem updateItemStatus_wf {b b2 : Batch} {o s : String} {t : Nat}
    (hwf : BatchWf b) (hok : b.updateItemStatus o s t = .ok b2) : BatchWf b2 := by
  rw [Batch.updateItemStatus] at hok
  cases hu : updItemStatus o s t b.items with
  | some l =>
    rw [hu] at hok
    simp only [Except.ok.injEq] at hok
    subst hok
    have hsh := shape_productIDs (updItemStatus_shape hu)
    refine ⟨wf_items_of_map (b := b) hwf hsh.1, ?_⟩
    show b.totalItems = l.length
    rw [hsh.2]
    exact hwf.2
  | none =>
    rw [hu] at hok
    exact absurd hok (by simp)

/-! ## C3: invariant-preservation helpers at the repository level -/

theorem repoInv_save_notPending {r : Repo} {b : Batch} (hinv : RepoInv r)
    (hwf : BatchWf b) (hnp : ∀ q, pendPred q b = false) : RepoInv (Repo.save r b) := by
  refine ⟨nodup_save _ hinv.1, ?_, ?_⟩
  · intro c hc
    rcases mem_save hc with h | h
    · rw [h]; exact hwf
    · exact hinv.2.1 c h
  · intro q
    exact le_trans (pendingCount_save_notP (hnp q)) (hinv.2.2 q)

theorem repoInv_save_replace {r : Repo} {b c : Batch} (hinv : RepoInv r)
    (hc : c ∈ r) (hid : c.id = b.id) (hwf : BatchWf b)
    (hpred : ∀ q, pendPred q b = pendPred q c) : RepoInv (Repo.save r b) := by
  refine ⟨nodup_save _ hinv.1, ?_, ?_⟩
  · intro x hx
    rcases mem_save hx with h | h
    · rw [h]; exact hwf
    · exact hinv.2.1 x h
  · intro q
    rw [pendingCount_save_congr hinv.1 hc hid (hpred q)]
    exact hinv.2.2 q

theorem repoInv_save_newPending {r : Repo} {b : Batch} {p : String} (hinv : RepoInv r)
    (hwf : BatchWf b) (hprod : b.productID = p)
    (hfp : r.find? (pendPred p) = none) : RepoInv (Repo.save r b) := by
  refine ⟨nodup_save _ hinv.1, ?_, ?_⟩
  · intro x hx
    rcases mem_save hx with h | h
    · rw [h]; exact hwf
    · exact hinv.2.1 x h
  · intro q
    cases hqb : pendPred q b with
    | false => exact le_trans (pendingCount_save_notP hqb) (hinv.2.2 q)
    | true =>
      have hq : b.productID = q := by
        rw [pendPred] at hqb
        exact (of_decide_eq_true hqb).1
      have hqp : q = p := by rw [← hq, hprod]
      subst hqp
      exact pendingCount_save_le_one (pendingCount_zero_of_none hfp)

theorem repoInv_delete {r : Repo} (id : String) (hinv : RepoInv r) :
    RepoInv (Repo.delete r id) := by
  refine ⟨nodup_delete id hinv.1, ?_, ?_⟩
  · intro x hx
    exact hinv.2.1 x (mem_delete hx)
  · intro q
    exact le_trans pendingCount_delete_le (hinv.2.2 q)

theorem stepOp_ok {st st1 : ServiceState} {op : ServiceOp} {now : Nat}
    (h : applyOp st op now = .ok st1) : stepOp st (op, now) = st1 := by
  simp [stepOp, h]

theorem stepOp_err {st : ServiceState} {op : ServiceOp} {now : Nat} {e : String}
    (h : applyOp st op now = .error e) : stepOp st (op, now) = st := by
  simp [stepOp, h]

/-- One service operation preserves the repository invariant. -/
theorem applyOp_preserves (st : ServiceState) (op : ServiceOp) (now : Nat)
    (hinv : RepoInv st.repo) : RepoInv (stepOp st (op, now)).repo := by
  cases op with
  | addOrder o p q s =>
    obtain ⟨st1, b1, heq, hrepo, hprod, hstat, ⟨j, hj, hjo, hjs, hjq⟩, hord,
      hidsome, hidnone, b0, hb0, hadd⟩ := addOrderToBatch_post st o p q s now
    have happ : applyOp st (.addOrder o p q s) now = .ok st1 := by
      show (addOrderToBatch st o p q s now).map Prod.fst = .ok st1
      rw [heq]
      rfl
    rw [stepOp_ok happ, hrepo]
    have hwfb0 : BatchWf b0 := by
      rcases hb0 with h | h
      · exact hinv.2.1 b0 h
      · rw [h]; exact newBatch_wf _ _ _
    have hwf1 : BatchWf b1 := addItem_wf hwfb0 hadd
    cases hfp : st.repo.findPendingBatchForProduct p with
    | some c =>
      have hcpend := List.find?_some hfp
      simp only [decide_eq_true_eq] at hcpend
      refine repoInv_save_replace hinv (List.mem_of_find?_eq_some hfp)
        (hidsome c hfp).symm hwf1 ?_
      intro q2
      rw [pendPred, pendPred, hprod, hstat, hcpend.1, hcpend.2]
    | none =>
      have hfp0 : st.repo.find? (pendPred p) = none := hfp
      exact repoInv_save_newPending hinv hwf1 hprod hfp0
  | updateStatus o s =>
    have happ : applyOp st (ServiceOp.updateStatus o s) now =
        updateOrderStatus st o s now := rfl
    cases hf : st.repo.findByOrderID o with
    | none =>
      rw [stepOp_err (happ.trans (updateOrderStatus_err (s := s) (t := now) hf))]
      exact hinv
    | some b =>
      obtain ⟨st1, l, heq, hl, hrepo⟩ := updateOrderStatus_ok (s := s) (t := now) hf
      rw [stepOp_ok (happ.trans heq), hrepo]
      have hb : b ∈ st.repo := List.mem_of_find?_eq_some hf
      have hwf : BatchWf b := hinv.2.1 b hb
      have hsh := shape_productIDs (updItemStatus_shape hl)
      refine repoInv_save_replace hinv hb rfl ?_ (fun q2 => rfl)
      refine ⟨wf_items_of_map (b := b) hwf hsh.1, ?_⟩
      show b.totalItems = l.length
      rw [hsh.2]
      exact hwf.2
  | removeOrder o =>
    have happ : applyOp st (ServiceOp.removeOrder o) now =
        removeOrderFromBatch st o now := rfl
    cases hf : st.repo.findByOrderID o with
    | none =>
      have herr : removeOrderFromBatch st o now =
          .error ("failed to find batch for order " ++ o) := by
        rw [removeOrderFromBatch, hf]
      rw [stepOp_err (happ.trans herr)]
      exact hinv
    | some b =>
      have hb : b ∈ st.repo := List.mem_of_find?_eq_some hf
      have hwf : BatchWf b := hinv.2.1 b hb
      by_cases hcomp : b.status = .completed
      · have hrem : b.removeItem o now =
            .error "cannot remove items from completed batch" := by
          rw [Batch.removeItem, if_pos hcomp]
        have herr : removeOrderFromBatch st o now = .error
            ("failed to remove order from batch: " ++
              "cannot remove items from completed batch") := by
          simp only [removeOrderFromBatch, hf, hrem]
        rw [stepOp_err (happ.trans herr)]
        exact hinv
      · cases hfi : removeFirstItem o b.items with
        | none =>
          have hrem : b.removeItem o now =
              .error ("order " ++ o ++ " not found in batch") := by
            rw [Batch.removeItem, if_neg hcomp, hfi]
          have herr : removeOrderFromBatch st o now = .error
              ("failed to remove order from batch: " ++
                ("order " ++ o ++ " not found in batch")) := by
            simp only [removeOrderFromBatch, hf, hrem]
          rw [stepOp_err (happ.trans herr)]
          exact hinv
        | some l =>
          have hrem : b.removeItem o now =
              .ok { b with items := l, totalItems := l.length, updatedAt := now } := by
            rw [Batch.removeItem, if_neg hcomp, hfi]
          have hwf1 : BatchWf
              ({ b with items := l, totalItems := l.length, updatedAt := now } : Batch) := by
            refine ⟨?_, rfl⟩
            intro i hi
            exact hwf.1 i ((removeFirstItem_sublist hfi).mem hi)
          cases hemp : l.isEmpty with
          | true =>
            have hok : removeOrderFromBatch st o now = .ok
                { repo := st.repo.delete b.id,
                  events := st.events ++ [newBatchItemRemovedEvent
                    { b with items := l, totalItems := l.length, updatedAt := now } o now] } := by
              simp only [removeOrderFromBatch, hf, hrem, Batch.isEmpty, hemp, if_true]
            rw [stepOp_ok (happ.trans hok)]
            exact repoInv_delete b.id hinv
          | false =>
            have hok : removeOrderFromBatch st o now = .ok
                { repo := st.repo.save
                    { b with items := l, totalItems := l.length, updatedAt := now },
                  events := st.events ++ [newBatchItemRemovedEvent
                    { b with items := l, totalItems := l.length, updatedAt := now } o now] } := by
              simp only [removeOrderFromBatch, hf, hrem, Batch.isEmpty, hemp,
                Bool.false_eq_true, if_false]
            rw [stepOp_ok (happ.trans hok)]
            exact repoInv_save_replace hinv hb rfl hwf1 (fun q2 => rfl)
  | processB id =>
    have happ : applyOp st (ServiceOp.processB id) now = processBatch st id now := rfl
    cases hf : st.repo.findByID id with
    | none =>
      have herr : processBatch st id now = .error ("failed to find batch " ++ id) := by
        rw [processBatch, hf]
      rw [stepOp_err (happ.trans herr)]
      exact hinv
    | some b =>
      have hb : b ∈ st.repo := List.mem_of_find?_eq_some hf
      have hwf : BatchWf b := hinv.2.1 b hb
      by_cases hst : b.status = .pending
      · have hok : processBatch st id now = .ok
            { repo := st.repo.save { b with status := .processing, updatedAt := now },
              events := st.events ++ [newBatchProcessingStartedEvent
                { b with status := .processing, updatedAt := now } now] } := by
          simp only [processBatch, hf, Batch.startProcessing, hst]
          rw [if_neg (by simp)]
        rw [stepOp_ok (happ.trans hok)]
        exact repoInv_save_notPending hinv ⟨hwf.1, hwf.2⟩ (fun q2 => by simp [pendPred])
      · have herr : processBatch st id now = .error "cannot start processing batch" := by
          simp only [processBatch, hf, Batch.startProcessing]
          rw [if_pos (by simp [hst])]
        rw [stepOp_err (happ.trans herr)]
        exact hinv
  | completeB id =>
    have happ : applyOp st (ServiceOp.completeB id) now = completeBatch st id now := rfl
    cases hf : st.repo.findByID id with
    | none =>
      have herr : completeBatch st id now = .error ("failed to find batch " ++ id) := by
        rw [completeBatch, hf]
      rw [stepOp_err (happ.trans herr)]
      exact hinv
    | some b =>
      have hb : b ∈ st.repo := List.mem_of_find?_eq_some hf
      have hwf : BatchWf b := hinv.2.1 b hb
      by_cases hst : b.status = .processing
      · have hok : completeBatch st id now = .ok
            { repo := st.repo.save { b with status := .completed, processedAt := some now, updatedAt := now },
              events := st.events ++ [newBatchCompletedEvent { b with status := .completed, processedAt := some now, updatedAt := now } now] } := by
          simp only [completeBatch, hf, Batch.complete, hst]
          rw [if_neg (by simp)]
        rw [stepOp_ok (happ.trans hok)]
        exact repoInv_save_notPending hinv ⟨hwf.1, hwf.2⟩ (fun q2 => by simp [pendPred])
      · have herr : completeBatch st id now = .error "cannot complete batch" := by
          simp only [completeBatch, hf, Batch.complete]
          rw [if_pos (by simp [hst])]
        rw [stepOp_err (happ.trans herr)]
        exact hinv
  | cancelB id =>
    have happ : applyOp st (ServiceOp.cancelB id) now = cancelBatch st id now := rfl
    cases hf : st.repo.findByID id with
    | none =>
      have herr : cancelBatch st id now = .error ("failed to find batch " ++ id) := by
        rw [cancelBatch, hf]
      rw [stepOp_err (happ.trans herr)]
      exact hinv
    | some b =>
      have hb : b ∈ st.repo := List.mem_of_find?_eq_some hf
      have hwf : BatchWf b := hinv.2.1 b hb
      by_cases hst : b.status = .completed
      · have herr : cancelBatch st id now = .error "cannot cancel completed batch" := by
          simp only [cancelBatch, hf, Batch.cancel]
          rw [if_pos hst]
        rw [stepOp_err (happ.trans herr)]
        exact hinv
      · have hok : cancelBatch st id now = .ok
            { repo := st.repo.save { b with status := .cancelled, updatedAt := now },
              events := st.events ++ [newBatchCancelledEvent
                { b with status := .cancelled, updatedAt := now } now] } := by
          simp only [cancelBatch, hf, Batch.cancel]
          rw [if_neg hst]
        rw [stepOp_ok (happ.trans hok)]
        exact repoInv_save_notPending hinv ⟨hwf.1, hwf.2⟩ (fun q2 => by simp [pendPred])
  | markDamagedB id =>
    have happ : applyOp st (ServiceOp.markDamagedB id) now =
        markBatchAsDamaged st id now := rfl
    cases hf : st.repo.findByID id with
    | none =>
      have herr : markBatchAsDamaged st id now =
          .error ("failed to find batch " ++ id) := by
        rw [markBatchAsDamaged, hf]
      rw [stepOp_err (happ.trans herr)]
      exact hinv
    | some b =>
      have hb : b ∈ st.repo := List.mem_of_find?_eq_some hf
      have hwf : BatchWf b := hinv.2.1 b hb
      rw [stepOp_ok (happ.trans (markBatchAsDamaged_ok hf))]
      exact repoInv_save_notPending hinv ⟨hwf.1, hwf.2⟩ (fun q2 => by simp [pendPred])

theorem runOps_inv (ops : List (ServiceOp × Nat)) :
    ∀ st : ServiceState, RepoInv st.repo → RepoInv (runOps st ops).repo := by
  induction ops with
  | nil => intro st h; exact h
  | cons p rest ih =>
    intro st h
    rw [runOps]
    exact ih (stepOp st p) (by
      cases p with
      | mk op now => exact applyOp_preserves st op now h)

theorem repoInv_nil : RepoInv ([] : Repo) := by
  refine ⟨?_, ?_, ?_⟩
  · simp [nodupIds]
  · intro b hb; simp at hb
  · intro p; simp [pendingCount]

/-- C3: every repository state reachable from the empty repository through
the batch service operations satisfies the invariant: every stored batch
is well formed (item productIDs match the batch, totalItems equals the
item count) and for every product at most one stored batch is pending. -/
theorem c3_invariant (ops : List (ServiceOp × Nat)) :
    RepoInv (runOps { repo := [], events := [] } ops).repo :=
  runOps_inv ops { repo := [], events := [] } repoInv_nil

theorem c3_invariant_witness :
    RepoInv (runOps { repo := [], events := [] } c3Ops).repo ∧
    (runOps { repo := [], events := [] } c3Ops).repo = [c3Batch] :=
  ⟨c3_invariant c3Ops, by decide⟩

end ArqK8s
